import Mathlib

/-!
Verification of the AGV spatial-conflict engine (package `agvCollider`).

The Go source is shallowly embedded: `float64` becomes `ℝ` (with
`math.Hypot (a b)` as `Real.sqrt (a^2 + b^2)` and `math.MaxFloat64` as
the exact constant `2^1024 - 2^971`), slices become lists, pointer-held
vehicles become values, and the methods that mutate the receiver
(`GenerateSubPath`, `PredictPosition`) are modelled by explicit state
passing, returning the updated vehicle together with their result.
`sort.Slice` (an unspecified in-place comparison sort) is modelled by an
insertion sort producing a sorted permutation of the input slice;
`buildKDTree`, which sorts the caller's slice in place at every level,
returns the rebuilt tree together with the reordered slice contents.
-/

open Classical

noncomputable section

namespace AgvCollider

/-- A 2D pose: position plus heading (radians, 0 = +x). -/
structure Pose where
  X : ℝ
  Y : ℝ
  T : ℝ

/-- Undirected 2D point. -/
structure Point where
  X : ℝ
  Y : ℝ

/-- Ordered pair of points, one path segment. -/
structure Segment where
  Start : Point
  End : Point

/-- An automated guided vehicle: identity, width, current pose, speed,
full planned path, cached sub-path and the initialization flag. -/
structure AGV where
  Id : Int
  Width : ℝ
  Pose : Pose
  Speed : ℝ
  Path : List Point
  SubPath : List Point
  InitDone : Bool

/-- Model of `math.MaxFloat64`, the largest finite IEEE-754 double, exactly. -/
def maxFloat64 : ℝ := 2 ^ 1024 - 2 ^ 971

/-- Model of `math.Hypot` on reals: the Euclidean norm of `(a, b)`. -/
def hypot (a b : ℝ) : ℝ := Real.sqrt (a ^ 2 + b ^ 2)

/-- Model of `getDistance`: Euclidean distance between two points. -/
def getDistance (p1 p2 : Point) : ℝ := hypot (p2.X - p1.X) (p2.Y - p1.Y)

/-- Model of `dot`: 2D dot product. -/
def dot (ax ay bx by' : ℝ) : ℝ := ax * bx + ay * by'

/-- Model of `cross`: 2D cross product; zero encodes collinearity. -/
def cross (ax ay bx by' : ℝ) : ℝ := ax * by' - ay * bx

/-- Model of `interpolate`: unclamped linear blend between two points. -/
def interpolate (p1 p2 : Point) (t : ℝ) : Point :=
  ⟨p1.X + (p2.X - p1.X) * t, p1.Y + (p2.Y - p1.Y) * t⟩

/-- Model of `projectPointOnSegment`: orthogonal projection of a pose onto a
segment, the parameter clamped to `[0,1]`; a degenerate segment yields
its start point with parameter 0. -/
def projectPointOnSegment (pose : Pose) (seg : Segment) : Point × ℝ :=
  let vx := seg.End.X - seg.Start.X
  let vy := seg.End.Y - seg.Start.Y
  let wx := pose.X - seg.Start.X
  let wy := pose.Y - seg.Start.Y
  let segLen2 := vx * vx + vy * vy
  if segLen2 = 0 then
    (seg.Start, 0)
  else
    let t0 := dot wx wy vx vy / segLen2
    let t1 := if t0 < 0 then 0 else t0
    let t := if t1 > 1 then 1 else t1
    (⟨seg.Start.X + t * vx, seg.Start.Y + t * vy⟩, t)

/-- Model of `closestPointOnSegment`: clamped projection of a point onto a segment. -/
def closestPointOnSegment (p : Point) (seg : Segment) : Point :=
  let apx := p.X - seg.Start.X
  let apy := p.Y - seg.Start.Y
  let abx := seg.End.X - seg.Start.X
  let aby := seg.End.Y - seg.Start.Y
  let ab2 := abx * abx + aby * aby
  if ab2 = 0 then
    seg.Start
  else
    let t0 := (apx * abx + apy * aby) / ab2
    let t1 := if t0 < 0 then 0 else t0
    let t := if t1 > 1 then 1 else t1
    ⟨seg.Start.X + abx * t, seg.Start.Y + aby * t⟩

/-- Model of `segmentIntersect`: intersection point of two segments; collinear
near-overlapping segments map to the midpoint of the overlap interval. -/
def segmentIntersect (s1 s2 : Segment) (width : ℝ) : Option Point :=
  let dx1 := s1.End.X - s1.Start.X
  let dy1 := s1.End.Y - s1.Start.Y
  let dx2 := s2.End.X - s2.Start.X
  let dy2 := s2.End.Y - s2.Start.Y
  let denom := cross dx1 dy1 dx2 dy2
  if denom = 0 then
    if cross (s2.Start.X - s1.Start.X) (s2.Start.Y - s1.Start.Y) dx1 dy1 = 0 then
      if dx1 ≠ 0 then
        let minA := min s1.Start.X s1.End.X
        let maxA := max s1.Start.X s1.End.X
        let minB := min s2.Start.X s2.End.X
        let maxB := max s2.Start.X s2.End.X
        if max minA minB ≤ min maxA maxB + width / 2 then
          some ⟨(max minA minB + min maxA maxB) / 2, s1.Start.Y⟩
        else none
      else
        let minA := min s1.Start.Y s1.End.Y
        let maxA := max s1.Start.Y s1.End.Y
        let minB := min s2.Start.Y s2.End.Y
        let maxB := max s2.Start.Y s2.End.Y
        if max minA minB ≤ min maxA maxB + width / 2 then
          some ⟨s1.Start.X, (max minA minB + min maxA maxB) / 2⟩
        else none
    else none
  else
    let t := cross (s2.Start.X - s1.Start.X) (s2.Start.Y - s1.Start.Y) dx2 dy2 / denom
    let u := cross (s2.Start.X - s1.Start.X) (s2.Start.Y - s1.Start.Y) dx1 dy1 / denom
    if 0 ≤ t ∧ t ≤ 1 ∧ 0 ≤ u ∧ u ≤ 1 then
      some ⟨s1.Start.X + t * dx1, s1.Start.Y + t * dy1⟩
    else none

/-- Model of `segmentDistance`: the code's candidate scan — each of the four
clamped endpoint projections is keyed by its least distance to any of
the four segment endpoints, and the best-keyed candidate is returned. -/
def segmentDistance (s1 s2 : Segment) : ℝ × Point :=
  let candidates : List Point :=
    [closestPointOnSegment s1.Start s2,
     closestPointOnSegment s1.End s2,
     closestPointOnSegment s2.Start s1,
     closestPointOnSegment s2.End s1]
  candidates.foldl
    (fun st c =>
      let d := min (min (getDistance s1.Start c) (getDistance s1.End c))
                   (min (getDistance s2.Start c) (getDistance s2.End c))
      if d < st.1 then (d, c) else st)
    (maxFloat64, ⟨0, 0⟩)

/-- Modelled from the spec (§4.1), for comparison with the code's
`segmentDistance`: the minimum over the four endpoint-to-opposite-segment
clamped projections of the endpoint-to-projection distance, paired with
the projection achieving that minimum. -/
def segmentDistanceSpec (s1 s2 : Segment) : ℝ × Point :=
  let pairs : List (Point × Point) :=
    [(s1.Start, closestPointOnSegment s1.Start s2),
     (s1.End, closestPointOnSegment s1.End s2),
     (s2.Start, closestPointOnSegment s2.Start s1),
     (s2.End, closestPointOnSegment s2.End s1)]
  pairs.foldl
    (fun st pc =>
      if getDistance pc.1 pc.2 < st.1 then (getDistance pc.1 pc.2, pc.2) else st)
    (maxFloat64, ⟨0, 0⟩)

/-- Go zero value of `Point`. -/
def zeroPoint : Point := ⟨0, 0⟩

/-- Go zero value of `AGV`. -/
def zeroAGV : AGV := ⟨0, 0, ⟨0, 0, 0⟩, 0, [], [], false⟩

/-- The consecutive-point segments of a path. -/
def pathSegments (path : List Point) : List Segment :=
  (path.zip path.tail).map fun pq => ⟨pq.1, pq.2⟩

/-- Model of `pathDistanceToPoint`'s accumulating loop: stop at the first segment
carrying the point (collinearity plus a 1e-6 box test), else add the
whole segment and continue. -/
def pathDistanceToPointAux : List Point → Point → ℝ → ℝ
  | p1 :: p2 :: rest, p, total =>
    if cross (p.X - p1.X) (p.Y - p1.Y) (p2.X - p1.X) (p2.Y - p1.Y) = 0 ∧
        min p1.X p2.X - 1e-6 ≤ p.X ∧ p.X ≤ max p1.X p2.X + 1e-6 ∧
        min p1.Y p2.Y - 1e-6 ≤ p.Y ∧ p.Y ≤ max p1.Y p2.Y + 1e-6 then
      total + getDistance p1 p
    else
      pathDistanceToPointAux (p2 :: rest) p (total + getDistance p1 p2)
  | _, _, total => total

/-- Model of `pathDistanceToPoint`: cumulative path length from the path's start
to the given point; the full path length when the point lies on no segment. -/
def pathDistanceToPoint (path : List Point) (p : Point) : ℝ :=
  pathDistanceToPointAux path p 0

/-- Model of `Collision`: an intersection point with per-path distances and times. -/
structure Collision where
  Point : Point
  PathADist : ℝ
  PathBDist : ℝ
  TimeA : ℝ
  TimeB : ℝ
  TimeDiff : ℝ

/-- Model of `CollisionEvent`: a resolved potential collision between two AGVs. -/
structure CollisionEvent where
  AGV1 : AGV
  AGV2 : AGV
  Point : Point
  Time1 : ℝ
  Time2 : ℝ
  DeltaT : ℝ

/-- Model of `findAllCollisions`: every segment-pair intersection across the two
paths, with arrival distances and times. -/
def findAllCollisions (pathA pathB : List Point) (vA vB width : ℝ) : List Collision :=
  (pathSegments pathA).flatMap fun s1 =>
    (pathSegments pathB).filterMap fun s2 =>
      match segmentIntersect s1 s2 width with
      | some inter =>
        let sA := pathDistanceToPoint pathA inter
        let sB := pathDistanceToPoint pathB inter
        let tA := sA / vA
        let tB := sB / vB
        some ⟨inter, sA, sB, tA, tB, |tA - tB|⟩
      | none => none

/-- One step of `earliestCollision`'s scan: a collision within the time
tolerance replaces the best candidate when its `min(TimeA, TimeB)` beats
the running minimum (initialized to `math.MaxFloat64`). -/
def earliestStep (tol : ℝ) (st : ℝ × Option Collision) (c : Collision) : ℝ × Option Collision :=
  if c.TimeDiff ≤ tol then
    let earliest := min c.TimeA c.TimeB
    if earliest < st.1 then (earliest, some c) else st
  else st

/-- Model of `earliestCollision`: among the collisions within the time tolerance,
the one with the least `min(TimeA, TimeB)` (scan with a
`math.MaxFloat64` sentinel). -/
def earliestCollision (pathA pathB : List Point) (vA vB width tol : ℝ) : Option Collision :=
  let all := findAllCollisions pathA pathB vA vB width
  if all.isEmpty then none
  else
    (all.foldl (earliestStep tol) ((maxFloat64, none) : ℝ × Option Collision)).2

/-- All segment pairs scanned by `checkPathIntersection`, in loop order. -/
def segPairs (pathA pathB : List Point) : List (Segment × Segment) :=
  (pathSegments pathA).flatMap fun s1 => (pathSegments pathB).map fun s2 => (s1, s2)

/-- One step of `checkPathIntersection`'s scan over a segment pair:
an intersect hit sets the found flag and competes keyed by its distance
to `pathA[0]`; otherwise a near miss (`segmentDistance ≤ width/2`) sets
the flag and competes keyed by its gap distance. -/
def checkStep (pathA : List Point) (width : ℝ) (st : ℝ × Point × Bool)
    (s : Segment × Segment) : ℝ × Point × Bool :=
  match segmentIntersect s.1 s.2 width with
  | some inter =>
    let d := getDistance (pathA.getD 0 zeroPoint) inter
    if d < st.1 then (d, inter, true) else (st.1, st.2.1, true)
  | none =>
    let dp := segmentDistance s.1 s.2
    if dp.1 ≤ width / 2 then
      if dp.1 < st.1 then (dp.1, dp.2, true) else (st.1, st.2.1, true)
    else st

/-- Model of `checkPathIntersection`: scan of all segment pairs keeping state
(minDist, nearest, found). -/
def checkPathIntersection (pathA pathB : List Point) (width : ℝ) : Option Point :=
  let st := (segPairs pathA pathB).foldl (checkStep pathA width)
    ((maxFloat64, zeroPoint, false) : ℝ × Point × Bool)
  if st.2.2 then some st.2.1 else none

/-- The point `p` is a contact candidate of the segment pair `pr`: a
direct intersect hit, or the near-miss contact point when the pair's
`segmentDistance` is within half the width. -/
def isContactCandidate (width : ℝ) (pr : Segment × Segment) (p : Point) : Prop :=
  segmentIntersect pr.1 pr.2 width = some p ∨
    (segmentIntersect pr.1 pr.2 width = none ∧
     (segmentDistance pr.1 pr.2).1 ≤ width / 2 ∧ (segmentDistance pr.1 pr.2).2 = p)

/-- KD-tree node: Go's `*KDNode` with `nil` made explicit. -/
inductive KDNode where
  | nil : KDNode
  | node (agv : AGV) (left : KDNode) (right : KDNode) (depth : Nat) : KDNode

/-- The comparison key of `sort.Slice` inside `buildKDTree`:
x-coordinate at even depth, y-coordinate at odd depth. -/
def axisKey (axis : Nat) (a : AGV) : ℝ :=
  if axis = 0 then a.Pose.X else a.Pose.Y

/-- Sorted insertion, the auxiliary step of the sort model. -/
def insertSorted (key : AGV → ℝ) (a : AGV) : List AGV → List AGV
  | [] => [a]
  | b :: bs => if key a ≤ key b then a :: b :: bs else b :: insertSorted key a bs

/-- Model of `sort.Slice`: some sorted permutation of the slice
(the Go library sort is an unspecified in-place comparison sort). -/
def sortByKey (key : AGV → ℝ) : List AGV → List AGV
  | [] => []
  | a :: rest => insertSorted key a (sortByKey key rest)

lemma insertSorted_length (key : AGV → ℝ) (a : AGV) (l : List AGV) :
    (insertSorted key a l).length = l.length + 1 := by
  induction l with
  | nil => rfl
  | cons b bs ih =>
    simp only [insertSorted]
    split <;> simp [ih]

lemma sortByKey_length (key : AGV → ℝ) (l : List AGV) :
    (sortByKey key l).length = l.length := by
  induction l with
  | nil => rfl
  | cons a rest ih => simp [sortByKey, insertSorted_length, ih]

/-- Model of `buildKDTree`: recursive median split after sorting by the depth's
axis. Since the Go code sorts the caller's slice (and its sub-slices)
in place, the model returns the tree together with the slice contents
after the call. -/
def buildKDTree : List AGV → Nat → KDNode × List AGV
  | [], _ => (.nil, [])
  | a :: rest, depth =>
    let sorted := sortByKey (axisKey (depth % 2)) (a :: rest)
    let median := sorted.length / 2
    let lhs := buildKDTree (sorted.take median) (depth + 1)
    let rhs := buildKDTree (sorted.drop (median + 1)) (depth + 1)
    (.node (sorted.getD median zeroAGV) lhs.1 rhs.1 depth,
      lhs.2 ++ sorted.getD median zeroAGV :: rhs.2)
termination_by l _ => l.length
decreasing_by
  · simp only [List.length_take, sortByKey_length, List.length_cons]
    omega
  · simp only [List.length_drop, sortByKey_length, List.length_cons]
    omega

/-- The vehicles stored in a KD-tree, in in-order traversal order. -/
def KDNode.elems : KDNode → List AGV
  | .nil => []
  | .node a l r _ => l.elems ++ a :: r.elems

/-- Well-formedness of a KD-tree node: on the split axis determined by
the node's stored depth, every left-subtree vehicle is ≤ and every
right-subtree vehicle is ≥ the node's vehicle. -/
def KDNode.WF : KDNode → Prop
  | .nil => True
  | .node a l r d =>
    (∀ v ∈ l.elems, axisKey (d % 2) v ≤ axisKey (d % 2) a) ∧
    (∀ v ∈ r.elems, axisKey (d % 2) a ≤ axisKey (d % 2) v) ∧ l.WF ∧ r.WF

/-- Model of `distance`: Euclidean distance between two AGVs' positions. -/
def distance (a b : AGV) : ℝ :=
  hypot (a.Pose.X - b.Pose.X) (a.Pose.Y - b.Pose.Y)

/-- The membership test of `rangeSearch` as a Boolean predicate:
id differs from the target's and the distance is within the radius. -/
def inRangeB (target : AGV) (r : ℝ) (v : AGV) : Bool :=
  decide (v.Id ≠ target.Id ∧ distance v target ≤ r)

/-- Model of `rangeSearch`: depth-first radius query; appends the node's vehicle
when its id differs from the target's and it lies within the radius,
always descends into the target's half-space and into the other one
when the splitting plane is within the radius. -/
def rangeSearch : KDNode → AGV → ℝ → List AGV → List AGV
  | .nil, _, _, results => results
  | .node a l r depth, target, rad, results =>
    let results1 := if a.Id ≠ target.Id ∧ distance a target ≤ rad then results ++ [a] else results
    let diff := if depth % 2 = 0 then target.Pose.X - a.Pose.X else target.Pose.Y - a.Pose.Y
    if diff ≤ 0 then
      let results2 := rangeSearch l target rad results1
      if |diff| ≤ rad then rangeSearch r target rad results2 else results2
    else
      let results2 := rangeSearch r target rad results1
      if |diff| ≤ rad then rangeSearch l target rad results2 else results2

/-- A straight path whose midpoint lies beyond half of `math.MaxFloat64`. -/
def hugePath : List Point := [⟨0, 0⟩, ⟨2 ^ 1024, 0⟩]

/-- The collision that `findAllCollisions` reports for `hugePath`
against itself at speed 1/4. -/
def hugeCollision : Collision := ⟨⟨2 ^ 1023, 0⟩, 2 ^ 1023, 2 ^ 1023, 2 ^ 1025, 2 ^ 1025, 0⟩

/-- A horizontal two-point path crossed by `crossPathB`. -/
def crossPathA : List Point := [⟨0, 0⟩, ⟨2, 0⟩]

/-- A vertical two-point path crossing `crossPathA` at `(1,0)`. -/
def crossPathB : List Point := [⟨1, -1⟩, ⟨1, 1⟩]

/-- The collision of `crossPathA` and `crossPathB` at unit speeds. -/
def crossCol : Collision := ⟨⟨1, 0⟩, 1, 1, 1, 1, 0⟩

/-- Fleet vehicle A: id 1, width 1, at `(0,0)` heading east (0 rad),
speed 2, path `[(0,0),(10,0)]`. -/
def fleetA : AGV := ⟨1, 1, ⟨0, 0, 0⟩, 2, [⟨0, 0⟩, ⟨10, 0⟩], [], false⟩

/-- Fleet vehicle B: id 2, width 1, at `(10,0)` heading west (π rad),
speed 2, path `[(10,0),(0,0)]`. -/
def fleetB : AGV := ⟨2, 1, ⟨10, 0, Real.pi⟩, 2, [⟨10, 0⟩, ⟨0, 0⟩], [], false⟩

/-- A horizontal 20-unit path. -/
def c7PathA : List Point := [⟨0, 0⟩, ⟨20, 0⟩]

/-- A path that first crosses `c7PathA` at `(5,0)` and then passes close
above it far from the start. -/
def c7PathB : List Point := [⟨5, -1⟩, ⟨5, 1⟩, ⟨18, 1 / 4⟩]

/-- Example vehicle: id 1 at x-coordinate 1. -/
def exA1 : AGV := ⟨1, 0, ⟨1, 0, 0⟩, 0, [], [], false⟩

/-- Example vehicle: id 2 at x-coordinate 0. -/
def exA2 : AGV := ⟨2, 0, ⟨0, 0, 0⟩, 0, [], [], false⟩

/-- A vehicle with a pre-populated sub-path cache, an unset init flag
and an empty planned path. -/
def exC9 : AGV := ⟨1, 0, ⟨0, 0, 0⟩, 0, [], [⟨0, 0⟩, ⟨1, 0⟩], false⟩

/-- A freshly constructed vehicle with a two-point path. -/
def exC9w : AGV := ⟨1, 0, ⟨0, 0, 0⟩, 1, [⟨0, 0⟩, ⟨1, 0⟩], [], false⟩

/-- The argmin loop of `GenerateSubPath`: scan all base-path segments
for the projection closest to the pose, returning
(min distance, segment index, projection point); Go zero values start
the scan. -/
def subPathScan (pose : Pose) (basePath : List Point) : ℝ × Nat × Point :=
  (List.range (basePath.length - 1)).foldl
    (fun st i =>
      let seg : Segment := ⟨basePath.getD i zeroPoint, basePath.getD (i + 1) zeroPoint⟩
      let p := (projectPointOnSegment pose seg).1
      let d := getDistance ⟨pose.X, pose.Y⟩ p
      if d < st.1 then (d, i, p) else st)
    ((maxFloat64, 0, zeroPoint) : ℝ × Nat × Point)

/-- The sub-path built by `GenerateSubPath` from a basis of ≥ 2 points:
the closest projection followed by the basis points strictly after the
segment that produced it. -/
def newSubPath (pose : Pose) (basePath : List Point) : List Point :=
  (subPathScan pose basePath).2.2 :: basePath.drop ((subPathScan pose basePath).2.1 + 1)

/-- Model of `GenerateSubPath`: re-base the cached sub-path at the pose's closest
projection. The basis is the full path on first use or when fewer than
2 points are cached, else the cached sub-path; a basis with fewer than
2 points is returned unchanged. Returns the sub-path with the updated
vehicle (the receiver is mutated in Go). -/
def GenerateSubPath (agv : AGV) : List Point × AGV :=
  let pick := if ¬agv.InitDone ∨ agv.SubPath.length < 2
    then (agv.Path, {agv with InitDone := true})
    else (agv.SubPath, agv)
  let basePath := pick.1
  let agv1 := pick.2
  if basePath.length < 2 then (basePath, agv1)
  else
    (newSubPath agv.Pose basePath, {agv1 with SubPath := newSubPath agv.Pose basePath})

/-- Model of `math.Atan2` on reals (signed zeros are not representable in `ℝ`). -/
def atan2 (y x : ℝ) : ℝ :=
  if 0 < x then Real.arctan (y / x)
  else if x < 0 then
    if 0 ≤ y then Real.arctan (y / x) + Real.pi else Real.arctan (y / x) - Real.pi
  else
    if 0 < y then Real.pi / 2 else if y < 0 then -(Real.pi / 2) else 0

/-- Per-segment lengths of a point list (`segmentLengths` in Go). -/
def segLens (pts : List Point) : List ℝ :=
  (pts.zip pts.tail).map fun pq => getDistance pq.1 pq.2

/-- Cumulative-length table (`cumulativeLengths` in Go): entry `i` is
the path length up to point `i`, starting at 0. -/
def cumLens (pts : List Point) : List ℝ :=
  (segLens pts).scanl (· + ·) 0

/-- Total polyline length, the sum of the per-segment lengths. -/
def pathLength (pts : List Point) : ℝ := (segLens pts).sum

/-- Model of `PredictPosition`: forecast the pose after travelling
`speed * dt` along the generated sub-path, committing the result as the
vehicle's new pose. Returns the pose with the updated vehicle. -/
def PredictPosition (agv : AGV) (dt : ℝ) : Pose × AGV :=
  let gs := GenerateSubPath agv
  let newPath := gs.1
  let agv1 := gs.2
  let n := newPath.length
  if n < 2 then (agv1.Pose, agv1)
  else
    let segmentLengths := segLens newPath
    let cumulativeLengths := cumLens newPath
    let targetS := agv1.Speed * dt
    let totalLen := cumulativeLengths.getD (n - 1) 0
    if targetS ≥ totalLen then
      let last := newPath.getD (n - 1) zeroPoint
      let dx := (newPath.getD (n - 1) zeroPoint).X - (newPath.getD (n - 2) zeroPoint).X
      let dy := (newPath.getD (n - 1) zeroPoint).Y - (newPath.getD (n - 2) zeroPoint).Y
      let pose : Pose := ⟨last.X, last.Y, atan2 dy dx⟩
      (pose, {agv1 with Pose := pose})
    else
      let segIdx :=
        match (List.range' 1 (n - 1)).find?
            (fun i => decide (targetS ≤ cumulativeLengths.getD i 0)) with
        | some i => i - 1
        | none => 0
      let segStart := newPath.getD segIdx zeroPoint
      let segEnd := newPath.getD (segIdx + 1) zeroPoint
      let segLen := segmentLengths.getD segIdx 0
      let distOnSeg := targetS - cumulativeLengths.getD segIdx 0
      let pt := interpolate segStart segEnd (distOnSeg / segLen)
      let pose : Pose := ⟨pt.X, pt.Y, atan2 (segEnd.Y - segStart.Y) (segEnd.X - segStart.X)⟩
      (pose, {agv1 with Pose := pose})

/-- Model of `DetectCollisionWith`: pairwise exact detector — the earliest
tolerated collision of the two full paths, packaged as an event. -/
def DetectCollisionWith (agv other : AGV) (tol : ℝ) : Option CollisionEvent :=
  match earliestCollision agv.Path other.Path agv.Speed other.Speed
      ((agv.Width + other.Width) / 2) tol with
  | some col => some ⟨agv, other, col.Point, col.TimeA, col.TimeB, col.TimeDiff⟩
  | none => none

/-- Model of `ScheduleAction`: one vehicle's scheduling instruction. -/
structure ScheduleAction where
  AGV : AGV
  Action : String
  WaitTime : ℝ
  Collision : CollisionEvent

/-- Model of `ResolveCollision`: the earlier-arriving vehicle (ties to vehicle 1)
gets GO with zero wait; the other gets WAIT with
`(earlier + safeGap) - later`. -/
def ResolveCollision (e : CollisionEvent) (safeGap : ℝ) : ScheduleAction × ScheduleAction :=
  if e.Time1 ≤ e.Time2 then
    (⟨e.AGV1, "GO", 0, e⟩, ⟨e.AGV2, "WAIT", (e.Time1 + safeGap) - e.Time2, e⟩)
  else
    (⟨e.AGV2, "GO", 0, e⟩, ⟨e.AGV1, "WAIT", (e.Time2 + safeGap) - e.Time1, e⟩)

/-- The `seen`-map check of the fleet detector: either id ordering. -/
def seenPair (seen : List (Int × Int)) (x y : Int) : Prop :=
  (x, y) ∈ seen ∨ (y, x) ∈ seen

/-- Inner loop of `DetectCollisionsWithKDTree` over one vehicle's
neighbors, threading the seen-pair set and the collected events. -/
def detectLoopInner (a : AGV) (tol : ℝ) (neighbors : List AGV)
    (st : List (Int × Int) × List CollisionEvent) :
    List (Int × Int) × List CollisionEvent :=
  neighbors.foldl
    (fun st other =>
      if seenPair st.1 a.Id other.Id then st
      else
        let results := match DetectCollisionWith a other tol with
          | some e => st.2 ++ [e]
          | none => st.2
        ((a.Id, other.Id) :: st.1, results))
    st

/-- Model of `DetectCollisionsWithKDTree`: build the KD-tree (reordering the
slice), query each vehicle's neighbors within the radius, deduplicate
unordered id pairs, and run the exact pairwise detector. -/
def DetectCollisionsWithKDTree (agvs : List AGV) (tol radius : ℝ) : List CollisionEvent :=
  let built := buildKDTree agvs 0
  (built.2.foldl
    (fun st a => detectLoopInner a tol (rangeSearch built.1 a radius []) st)
    (([], []) : List (Int × Int) × List CollisionEvent)).2

/-- Model of `DetectAndSchedule`: resolve every detected event into its two
scheduling actions, in detection order. -/
def DetectAndSchedule (agvs : List AGV) (tol radius safeGap : ℝ) : List ScheduleAction :=
  (DetectCollisionsWithKDTree agvs tol radius).foldl
    (fun actions e =>
      let acts := ResolveCollision e safeGap
      actions ++ [acts.1, acts.2])
    []

-- ===================== Theorems =====================

/-- C5: `ResolveCollision` gives vehicle 1 GO with zero wait and vehicle 2
WAIT with `(Time1 + safeGap) - Time2` whenever `Time1 ≤ Time2` (so ties go
to vehicle 1), and symmetrically otherwise; the computed wait can be
negative. -/
theorem ResolveCollision_policy (e : CollisionEvent) (safeGap : ℝ) :
    (e.Time1 ≤ e.Time2 →
      ResolveCollision e safeGap =
        (⟨e.AGV1, "GO", 0, e⟩, ⟨e.AGV2, "WAIT", (e.Time1 + safeGap) - e.Time2, e⟩)) ∧
    (¬e.Time1 ≤ e.Time2 →
      ResolveCollision e safeGap =
        (⟨e.AGV2, "GO", 0, e⟩, ⟨e.AGV1, "WAIT", (e.Time2 + safeGap) - e.Time1, e⟩)) ∧
    (∃ e' : CollisionEvent, ∃ g : ℝ, (ResolveCollision e' g).2.WaitTime < 0) := by
  refine ⟨fun h => ?_, fun h => ?_, ?_⟩
  · simp [ResolveCollision, h]
  · simp [ResolveCollision, h]
  · refine ⟨⟨zeroAGV, zeroAGV, zeroPoint, 0, 2, 2⟩, 1, ?_⟩
    norm_num [ResolveCollision]

/-- Witness for C5 at a concrete event: arrival times 1 and 2 with a
safe gap of 5 give vehicle 2 a 4-second wait. -/
theorem ResolveCollision_policy_witness :
    ResolveCollision ⟨zeroAGV, zeroAGV, zeroPoint, 1, 2, 1⟩ 5 =
      (⟨zeroAGV, "GO", 0, ⟨zeroAGV, zeroAGV, zeroPoint, 1, 2, 1⟩⟩,
       ⟨zeroAGV, "WAIT", 4, ⟨zeroAGV, zeroAGV, zeroPoint, 1, 2, 1⟩⟩) := by
  have h := (ResolveCollision_policy ⟨zeroAGV, zeroAGV, zeroPoint, 1, 2, 1⟩ 5).1
    (by norm_num)
  rw [h]
  norm_num

/-- C8 counterexample: on the degenerate segment from `(0,0)` to `(0,0)`,
a pose located at the segment's own end point yields parameter 0, not 1. -/
theorem projectPointOnSegment_degenerate_end :
    (projectPointOnSegment ⟨0, 0, 0⟩ ⟨⟨0, 0⟩, ⟨0, 0⟩⟩).2 ≠ 1 ∧
    (⟨0, 0, 0⟩ : Pose).X = (⟨⟨0, 0⟩, ⟨0, 0⟩⟩ : Segment).End.X ∧
    (⟨0, 0, 0⟩ : Pose).Y = (⟨⟨0, 0⟩, ⟨0, 0⟩⟩ : Segment).End.Y := by
  refine ⟨?_, rfl, rfl⟩
  norm_num [projectPointOnSegment]

/-- C8 (amended): the projection parameter always lies in `[0,1]`;
a pose at the segment's start projects to `t = 0`, and a pose at the
end of a non-degenerate segment projects to `t = 1` (a degenerate
segment returns `t = 0` even at its end point). -/
theorem projectPointOnSegment_param (pose : Pose) (seg : Segment) :
    0 ≤ (projectPointOnSegment pose seg).2 ∧ (projectPointOnSegment pose seg).2 ≤ 1 ∧
    (pose.X = seg.Start.X → pose.Y = seg.Start.Y →
      (projectPointOnSegment pose seg).2 = 0) ∧
    (seg.Start ≠ seg.End → pose.X = seg.End.X → pose.Y = seg.End.Y →
      (projectPointOnSegment pose seg).2 = 1) := by
  obtain ⟨⟨ax, ay⟩, ⟨bx, by'⟩⟩ := seg
  obtain ⟨px, py, pt⟩ := pose
  have hclamp : ∀ x : ℝ,
      0 ≤ (if (if x < 0 then (0 : ℝ) else x) > 1 then 1 else if x < 0 then (0 : ℝ) else x) ∧
      (if (if x < 0 then (0 : ℝ) else x) > 1 then 1 else if x < 0 then (0 : ℝ) else x) ≤ 1 := by
    intro x
    split_ifs <;> constructor <;> linarith
  simp only [projectPointOnSegment, dot]
  by_cases h0 : (bx - ax) * (bx - ax) + (by' - ay) * (by' - ay) = 0
  · rw [if_pos h0]
    refine ⟨by norm_num, by norm_num, fun _ _ => by norm_num, fun hne hx hy => ?_⟩
    exfalso
    apply hne
    have h1 : (bx - ax) * (bx - ax) = 0 :=
      le_antisymm (by linarith [mul_self_nonneg (by' - ay)]) (mul_self_nonneg _)
    have h2 : (by' - ay) * (by' - ay) = 0 :=
      le_antisymm (by linarith [mul_self_nonneg (bx - ax)]) (mul_self_nonneg _)
    have hbx : bx = ax := by have := mul_self_eq_zero.mp h1; linarith
    have hby : by' = ay := by have := mul_self_eq_zero.mp h2; linarith
    simp [hbx, hby]
  · rw [if_neg h0]
    refine ⟨(hclamp _).1, (hclamp _).2, ?_, ?_⟩
    · intro hx hy
      subst hx
      subst hy
      norm_num
    · intro hne hx hy
      subst hx
      subst hy
      show (if (if _ < 0 then (0 : ℝ) else _) > 1 then 1 else _) = 1
      rw [div_self h0]
      norm_num

/-- Witness for C8 at a concrete input: a pose at the end of the unit
segment from `(0,0)` to `(1,0)` projects with parameter exactly 1. -/
theorem projectPointOnSegment_param_witness :
    (projectPointOnSegment ⟨1, 0, 0⟩ ⟨⟨0, 0⟩, ⟨1, 0⟩⟩).2 = 1 := by
  refine (projectPointOnSegment_param ⟨1, 0, 0⟩ ⟨⟨0, 0⟩, ⟨1, 0⟩⟩).2.2.2 (fun h => ?_) rfl rfl
  have hx : (0 : ℝ) = 1 := congrArg Point.X h
  norm_num at hx

-- ===================== Shared helper lemmas =====================

lemma sqrt_eq_of_sq (a b : ℝ) (hb : 0 ≤ b) (h : b ^ 2 = a) : Real.sqrt a = b := by
  rw [← h, Real.sqrt_sq hb]

lemma hypot_nonneg (a b : ℝ) : 0 ≤ hypot a b := Real.sqrt_nonneg _

lemma abs_left_le_hypot (a b : ℝ) : |a| ≤ hypot a b := by
  rw [hypot, ← Real.sqrt_sq_eq_abs]
  exact Real.sqrt_le_sqrt (by nlinarith [sq_nonneg b])

lemma abs_right_le_hypot (a b : ℝ) : |b| ≤ hypot a b := by
  rw [hypot, ← Real.sqrt_sq_eq_abs]
  exact Real.sqrt_le_sqrt (by nlinarith [sq_nonneg a])

lemma maxFloat64_big : (10 ^ 9 : ℝ) < maxFloat64 := by
  have h1 : (2 : ℝ) ^ 971 ≤ 2 ^ 1023 := by
    apply pow_le_pow_right₀ (by norm_num)
    norm_num
  have h2 : (2 : ℝ) ^ 1024 = 2 ^ 1023 + 2 ^ 1023 := by ring
  have h3 : (10 ^ 9 : ℝ) < 2 ^ 30 := by norm_num
  have h4 : (2 : ℝ) ^ 30 ≤ 2 ^ 1023 := by
    apply pow_le_pow_right₀ (by norm_num)
    norm_num
  rw [maxFloat64]
  linarith

lemma lt_maxFloat64 {x : ℝ} (h : x ≤ 10 ^ 9) : x < maxFloat64 :=
  lt_of_le_of_lt h maxFloat64_big

-- ===================== C2: segmentDistance =====================

/-- C2 (code-bug evidence): on the horizontal segment `(0,0)–(10,0)` and
the vertical segment `(5,5)–(5,15)` — whose true minimum distance is 5 —
the code's `segmentDistance` returns distance 0 at point `(5,5)`, because
it keys each candidate projection by its least distance to *any* of the
four segment endpoints and the projection `(5,5)` is itself an endpoint
of s2. The spec's formula (`segmentDistanceSpec`) gives `(5, (5,0))`,
and every pair of points on the two segments is at distance ≥ 5. -/
theorem segmentDistance_endpoint_bug :
    segmentDistance ⟨⟨0, 0⟩, ⟨10, 0⟩⟩ ⟨⟨5, 5⟩, ⟨5, 15⟩⟩ = (0, ⟨5, 5⟩) ∧
    segmentDistanceSpec ⟨⟨0, 0⟩, ⟨10, 0⟩⟩ ⟨⟨5, 5⟩, ⟨5, 15⟩⟩ = (5, ⟨5, 0⟩) ∧
    (∀ s t : ℝ, 0 ≤ s → s ≤ 1 → 0 ≤ t → t ≤ 1 →
      5 ≤ getDistance (interpolate ⟨0, 0⟩ ⟨10, 0⟩ s) (interpolate ⟨5, 5⟩ ⟨5, 15⟩ t)) := by
  have hc1 : closestPointOnSegment ⟨0, 0⟩ ⟨⟨5, 5⟩, ⟨5, 15⟩⟩ = (⟨5, 5⟩ : Point) := by
    norm_num [closestPointOnSegment, Point.mk.injEq]
  have hc2 : closestPointOnSegment ⟨10, 0⟩ ⟨⟨5, 5⟩, ⟨5, 15⟩⟩ = (⟨5, 5⟩ : Point) := by
    norm_num [closestPointOnSegment, Point.mk.injEq]
  have hc3 : closestPointOnSegment ⟨5, 5⟩ ⟨⟨0, 0⟩, ⟨10, 0⟩⟩ = (⟨5, 0⟩ : Point) := by
    norm_num [closestPointOnSegment, Point.mk.injEq]
  have hc4 : closestPointOnSegment ⟨5, 15⟩ ⟨⟨0, 0⟩, ⟨10, 0⟩⟩ = (⟨5, 0⟩ : Point) := by
    norm_num [closestPointOnSegment, Point.mk.injEq]
  have e11 : getDistance ⟨0, 0⟩ ⟨5, 5⟩ = Real.sqrt 50 := by
    norm_num [getDistance, hypot]
  have e12 : getDistance ⟨10, 0⟩ ⟨5, 5⟩ = Real.sqrt 50 := by
    norm_num [getDistance, hypot]
  have e13 : getDistance ⟨5, 5⟩ ⟨5, 5⟩ = (0 : ℝ) := by
    norm_num [getDistance, hypot]
  have e14 : getDistance ⟨5, 15⟩ ⟨5, 5⟩ = (10 : ℝ) := by
    simp only [getDistance, hypot]
    exact sqrt_eq_of_sq _ _ (by norm_num) (by norm_num)
  have e21 : getDistance ⟨0, 0⟩ ⟨5, 0⟩ = (5 : ℝ) := by
    simp only [getDistance, hypot]
    exact sqrt_eq_of_sq _ _ (by norm_num) (by norm_num)
  have e22 : getDistance ⟨10, 0⟩ ⟨5, 0⟩ = (5 : ℝ) := by
    simp only [getDistance, hypot]
    exact sqrt_eq_of_sq _ _ (by norm_num) (by norm_num)
  have e23 : getDistance ⟨5, 5⟩ ⟨5, 0⟩ = (5 : ℝ) := by
    simp only [getDistance, hypot]
    exact sqrt_eq_of_sq _ _ (by norm_num) (by norm_num)
  have e24 : getDistance ⟨5, 15⟩ ⟨5, 0⟩ = (15 : ℝ) := by
    simp only [getDistance, hypot]
    exact sqrt_eq_of_sq _ _ (by norm_num) (by norm_num)
  have h50pos : (0 : ℝ) < Real.sqrt 50 := Real.sqrt_pos.mpr (by norm_num)
  have h50big : Real.sqrt 50 < maxFloat64 := by
    apply lt_maxFloat64
    calc Real.sqrt 50 ≤ Real.sqrt (8 ^ 2) := Real.sqrt_le_sqrt (by norm_num)
    _ = 8 := Real.sqrt_sq (by norm_num)
    _ ≤ 10 ^ 9 := by norm_num
  have h5lt : (5 : ℝ) < Real.sqrt 50 := by
    nlinarith [Real.sq_sqrt (show (0 : ℝ) ≤ 50 by norm_num), Real.sqrt_nonneg (50 : ℝ)]
  have hmA : min (0 : ℝ) 10 = 0 := min_eq_left (by norm_num)
  have hmB : min (Real.sqrt 50) 0 = 0 := min_eq_right h50pos.le
  have hmC : min (5 : ℝ) 15 = 5 := min_eq_left (by norm_num)
  have hT1 : (0 : ℝ) < maxFloat64 := lt_maxFloat64 (by norm_num)
  refine ⟨?_, ?_, ?_⟩
  · simp only [segmentDistance, hc1, hc2, hc3, hc4, List.foldl,
      e11, e12, e13, e14, e21, e22, e23, e24, min_self, hmA, hmB, hmC]
    norm_num [hT1, Prod.mk.injEq, Point.mk.injEq]
  · simp only [segmentDistanceSpec, hc1, hc2, hc3, hc4, List.foldl,
      e11, e12, e13, e14, e21, e22, e23, e24]
    norm_num [h50big, h5lt, Prod.mk.injEq, Point.mk.injEq]
  · intro s t hs hs1 ht ht1
    simp only [getDistance, interpolate]
    have key := abs_right_le_hypot ((5 + (5 - 5) * t) - (0 + (10 - 0) * s))
      ((5 + (15 - 5) * t) - (0 + (0 - 0) * s))
    have habs : (5 : ℝ) ≤ |(5 + (15 - 5) * t) - (0 + (0 - 0) * s)| := by
      rw [abs_of_nonneg (by nlinarith)]
      nlinarith
    linarith

-- ===================== Sort and KD-tree lemmas =====================

lemma insertSorted_perm (key : AGV → ℝ) (a : AGV) (l : List AGV) :
    (insertSorted key a l).Perm (a :: l) := by
  induction l with
  | nil => simp [insertSorted]
  | cons b bs ih =>
    simp only [insertSorted]
    split
    · exact List.Perm.refl _
    · exact (ih.cons b).trans (List.Perm.swap a b bs)

lemma sortByKey_perm (key : AGV → ℝ) (l : List AGV) :
    (sortByKey key l).Perm l := by
  induction l with
  | nil => simp [sortByKey]
  | cons a rest ih =>
    exact (insertSorted_perm key a (sortByKey key rest)).trans (ih.cons a)

lemma buildKDTree_nil (d : Nat) : buildKDTree ([] : List AGV) d = (KDNode.nil, []) := by
  rw [buildKDTree]

lemma buildKDTree_slice_perm_aux (n : Nat) :
    ∀ (l : List AGV), l.length ≤ n → ∀ (d : Nat), ((buildKDTree l d).2).Perm l := by
  induction n with
  | zero =>
    intro l hl d
    rw [List.length_eq_zero.mp (Nat.le_zero.mp hl), buildKDTree]
  | succ n ih =>
    intro l hl d
    cases l with
    | nil => rw [buildKDTree]
    | cons a rest =>
      rw [buildKDTree]
      rw [List.length_cons] at hl
      set s := sortByKey (axisKey (d % 2)) (a :: rest) with hs
      have hslen : s.length = rest.length + 1 := by
        rw [hs, sortByKey_length, List.length_cons]
      have hm : s.length / 2 < s.length := by omega
      have h1 := ih (s.take (s.length / 2))
        (by rw [List.length_take]; omega) (d + 1)
      have h2 := ih (s.drop (s.length / 2 + 1))
        (by rw [List.length_drop]; omega) (d + 1)
      have hgd : s.getD (s.length / 2) zeroAGV = s[s.length / 2] :=
        List.getD_eq_getElem s zeroAGV hm
      refine List.Perm.trans (h1.append (h2.cons (s.getD (s.length / 2) zeroAGV))) ?_
      rw [hgd, ← List.drop_eq_getElem_cons hm, List.take_append_drop]
      exact sortByKey_perm _ _

lemma buildKDTree_slice_perm (l : List AGV) (d : Nat) :
    ((buildKDTree l d).2).Perm l :=
  buildKDTree_slice_perm_aux l.length l le_rfl d

lemma sortByKey_ex : sortByKey (axisKey (0 % 2)) [exA1, exA2] = [exA2, exA1] := by
  norm_num [sortByKey, insertSorted, axisKey, exA1, exA2]

lemma sortByKey_ex2 : sortByKey (axisKey (1 % 2)) [exA2] = [exA2] := by
  simp [sortByKey, insertSorted]

lemma buildKDTree_ex2 : (buildKDTree [exA2] 1).2 = [exA2] := by
  rw [buildKDTree, sortByKey_ex2]
  show (buildKDTree ([] : List AGV) 2).2 ++ exA2 :: (buildKDTree ([] : List AGV) 2).2 = [exA2]
  rw [buildKDTree_nil]
  rfl

/-- C10: `buildKDTree` sorts the caller's slice (and recursively its
sub-slices) in place, so after any entry point that builds the tree the
slice holds the same vehicles as a multiset, but in general in a
different order: the returned slice is always a permutation of the
input, and on the two-vehicle fleet with x-coordinates 1 and 0 it is
actually reordered. -/
theorem buildKDTree_reorders_slice :
    (∀ (agvs : List AGV) (depth : Nat), ((buildKDTree agvs depth).2).Perm agvs) ∧
    (buildKDTree [exA1, exA2] 0).2 ≠ [exA1, exA2] := by
  refine ⟨buildKDTree_slice_perm, ?_⟩
  have e2 : (buildKDTree [exA1, exA2] 0).2 = [exA2, exA1] := by
    rw [buildKDTree, sortByKey_ex]
    show (buildKDTree [exA2] 1).2 ++ exA1 :: (buildKDTree ([] : List AGV) 1).2 = [exA2, exA1]
    rw [buildKDTree_ex2, buildKDTree_nil]
    rfl
  rw [e2]
  intro hcontra
  have h12 : exA2.Id = exA1.Id := congrArg AGV.Id (List.head_eq_of_cons_eq hcontra)
  rw [exA1, exA2] at h12
  norm_num at h12

-- ===================== C9: GenerateSubPath monotonicity =====================

lemma foldl_scan_bound (pose : Pose) (bp : List Point) (k : Nat) :
    ∀ (L : List Nat) (st : ℝ × Nat × Point), (∀ i ∈ L, i ≤ k) → st.2.1 ≤ k →
    (L.foldl (fun st i =>
      let seg : Segment := ⟨bp.getD i zeroPoint, bp.getD (i + 1) zeroPoint⟩
      let p := (projectPointOnSegment pose seg).1
      let d := getDistance ⟨pose.X, pose.Y⟩ p
      if d < st.1 then (d, i, p) else st) st).2.1 ≤ k := by
  intro L
  induction L with
  | nil => intro st _ hst; simpa using hst
  | cons j L ih =>
    intro st hL hst
    simp only [List.foldl_cons]
    apply ih
    · intro i hi
      exact hL i (List.mem_cons_of_mem _ hi)
    · dsimp only
      split
      · exact hL j (List.mem_cons_self _ _)
      · exact hst

lemma subPathScan_segIdx_le (pose : Pose) (bp : List Point) (h : 2 ≤ bp.length) :
    (subPathScan pose bp).2.1 ≤ bp.length - 2 := by
  rw [subPathScan]
  apply foldl_scan_bound
  · intro i hi
    rw [List.mem_range] at hi
    omega
  · simp

lemma newSubPath_length (pose : Pose) (bp : List Point) (h : 2 ≤ bp.length) :
    (newSubPath pose bp).length = bp.length - (subPathScan pose bp).2.1 := by
  have hb := subPathScan_segIdx_le pose bp h
  rw [newSubPath, List.length_cons, List.length_drop]
  omega

lemma newSubPath_length_bounds (pose : Pose) (bp : List Point) (h : 2 ≤ bp.length) :
    2 ≤ (newSubPath pose bp).length ∧ (newSubPath pose bp).length ≤ bp.length := by
  have hb := subPathScan_segIdx_le pose bp h
  rw [newSubPath_length pose bp h]
  omega

lemma GenerateSubPath_eq_pathBasis (agv : AGV)
    (hc1 : ¬agv.InitDone ∨ agv.SubPath.length < 2) :
    GenerateSubPath agv =
      if agv.Path.length < 2 then (agv.Path, {agv with InitDone := true})
      else (newSubPath agv.Pose agv.Path,
            {agv with InitDone := true, SubPath := newSubPath agv.Pose agv.Path}) := by
  simp only [GenerateSubPath, if_pos hc1]

lemma GenerateSubPath_eq_subBasis (agv : AGV)
    (hinit : agv.InitDone = true) (hlen : 2 ≤ agv.SubPath.length) :
    GenerateSubPath agv =
      (newSubPath agv.Pose agv.SubPath,
       {agv with SubPath := newSubPath agv.Pose agv.SubPath}) := by
  have hc1 : ¬(¬agv.InitDone ∨ agv.SubPath.length < 2) := by
    simp [hinit]
    omega
  simp only [GenerateSubPath, if_neg hc1]
  rw [if_neg (by omega)]

/-- C9 counterexample: on a vehicle whose init flag is unset, whose
cached `SubPath` already holds 2 points and whose `Path` has fewer than
2 points, the first `GenerateSubPath` call returns the empty path
(0 points) while the second call rebuilds from the 2-point cache —
the second sub-path is strictly longer than the first. -/
theorem GenerateSubPath_regrows :
    ((GenerateSubPath exC9).1).length = 0 ∧
    ((GenerateSubPath (GenerateSubPath exC9).2).1).length = 2 := by
  have h1 : GenerateSubPath exC9 = (([] : List Point), {exC9 with InitDone := true}) := by
    rw [GenerateSubPath_eq_pathBasis exC9 (by simp [exC9])]
    simp [exC9]
  constructor
  · rw [h1]
    rfl
  · rw [h1]
    have h2 := GenerateSubPath_eq_subBasis {exC9 with InitDone := true}
      (by simp) (by simp [exC9])
    rw [h2]
    dsimp only
    have hb := newSubPath_length_bounds exC9.Pose exC9.SubPath (by simp [exC9])
    have hlen : exC9.SubPath.length = 2 := by simp [exC9]
    omega

/-- C9 (amended): for every vehicle except the anomalous state where the
init flag is unset while a stale `SubPath` of ≥ 2 points is cached and
the `Path` holds fewer than 2 points, calling `GenerateSubPath` twice
with the pose unchanged yields a second sub-path with at most as many
points as the first call's result. -/
theorem GenerateSubPath_monotone (agv : AGV)
    (h : agv.InitDone = true ∨ agv.SubPath.length < 2 ∨ 2 ≤ agv.Path.length) :
    ((GenerateSubPath (GenerateSubPath agv).2).1).length ≤
      ((GenerateSubPath agv).1).length := by
  by_cases hc1 : ¬agv.InitDone ∨ agv.SubPath.length < 2
  · rw [GenerateSubPath_eq_pathBasis agv hc1]
    by_cases hp : agv.Path.length < 2
    · rw [if_pos hp]
      have hsub : agv.SubPath.length < 2 := by
        rcases hc1 with hni | hs
        · rcases h with hi | hs | hp2
          · exact absurd hi (by simpa using hni)
          · exact hs
          · omega
        · exact hs
      have hc1' : ¬({agv with InitDone := true}).InitDone ∨
          ({agv with InitDone := true}).SubPath.length < 2 := by
        right
        simpa using hsub
      rw [GenerateSubPath_eq_pathBasis _ hc1']
      simp only
      rw [if_pos (by simpa using hp)]
    · rw [if_neg hp]
      have hp2 : 2 ≤ agv.Path.length := by omega
      have hnp := newSubPath_length_bounds agv.Pose agv.Path hp2
      have h2 := GenerateSubPath_eq_subBasis
        {agv with InitDone := true, SubPath := newSubPath agv.Pose agv.Path}
        (by simp) (by simpa using hnp.1)
      rw [h2]
      simp only
      have := newSubPath_length_bounds agv.Pose (newSubPath agv.Pose agv.Path) hnp.1
      exact this.2
  · push_neg at hc1
    obtain ⟨hinit, hlen⟩ := hc1
    have hinit' : agv.InitDone = true := by simpa using hinit
    rw [GenerateSubPath_eq_subBasis agv hinit' hlen]
    have hnp := newSubPath_length_bounds agv.Pose agv.SubPath hlen
    have h2 := GenerateSubPath_eq_subBasis {agv with SubPath := newSubPath agv.Pose agv.SubPath}
      (by simpa using hinit') (by simpa using hnp.1)
    rw [h2]
    simp only
    have := newSubPath_length_bounds agv.Pose (newSubPath agv.Pose agv.SubPath) hnp.1
    exact this.2

/-- Witness for C9 at a concrete input: a freshly constructed vehicle
with a two-point path satisfies the amended hypothesis, and the second
call's sub-path is no longer than the first's. -/
theorem GenerateSubPath_monotone_witness :
    ((GenerateSubPath (GenerateSubPath exC9w).2).1).length ≤
      ((GenerateSubPath exC9w).1).length :=
  GenerateSubPath_monotone exC9w (Or.inr (Or.inl (by simp [exC9w])))

-- ===================== C6: PredictPosition =====================

lemma GenerateSubPath_speed (agv : AGV) : ((GenerateSubPath agv).2).Speed = agv.Speed := by
  simp only [GenerateSubPath]
  split_ifs <;> rfl

lemma scanl_getD_last (l : List ℝ) (a : ℝ) :
    (List.scanl (· + ·) a l).getD l.length 0 = a + l.sum := by
  induction l generalizing a with
  | nil => simp [List.scanl]
  | cons b bs ih =>
    simp only [List.scanl, List.length_cons, List.getD_cons_succ, List.sum_cons, ih (a + b)]
    ring

lemma segLens_length (pts : List Point) : (segLens pts).length = pts.length - 1 := by
  rw [segLens, List.length_map, List.length_zip]
  cases pts <;> simp

lemma cumLens_last (pts : List Point) (h : 1 ≤ pts.length) :
    (cumLens pts).getD (pts.length - 1) 0 = pathLength pts := by
  have := scanl_getD_last (segLens pts) 0
  rw [segLens_length] at this
  rw [cumLens, pathLength, this, zero_add]

/-- C6: for a vehicle whose generated sub-path has at least 2 points and
`dt ≥ 0`, `PredictPosition` commits the returned pose as the vehicle's
stored pose, and whenever `speed * dt` reaches or exceeds the total
sub-path length the returned pose is the final sub-path point with
heading `atan2` of the final segment's direction. -/
theorem PredictPosition_commits_and_endpoint (agv : AGV) (dt : ℝ)
    (h2 : 2 ≤ ((GenerateSubPath agv).1).length) (hdt : 0 ≤ dt) :
    ((PredictPosition agv dt).2).Pose = (PredictPosition agv dt).1 ∧
    (pathLength (GenerateSubPath agv).1 ≤ agv.Speed * dt →
      (PredictPosition agv dt).1 =
        ⟨((GenerateSubPath agv).1.getD ((GenerateSubPath agv).1.length - 1) zeroPoint).X,
         ((GenerateSubPath agv).1.getD ((GenerateSubPath agv).1.length - 1) zeroPoint).Y,
         atan2
           (((GenerateSubPath agv).1.getD ((GenerateSubPath agv).1.length - 1) zeroPoint).Y -
            ((GenerateSubPath agv).1.getD ((GenerateSubPath agv).1.length - 2) zeroPoint).Y)
           (((GenerateSubPath agv).1.getD ((GenerateSubPath agv).1.length - 1) zeroPoint).X -
            ((GenerateSubPath agv).1.getD ((GenerateSubPath agv).1.length - 2) zeroPoint).X)⟩) := by
  have hn2 : ¬(((GenerateSubPath agv).1).length < 2) := by omega
  constructor
  · simp only [PredictPosition]
    rw [if_neg hn2]
    split <;> rfl
  · intro htl
    have htl' : ((GenerateSubPath agv).2).Speed * dt ≥
        (cumLens (GenerateSubPath agv).1).getD (((GenerateSubPath agv).1).length - 1) 0 := by
      rw [cumLens_last _ (by omega), GenerateSubPath_speed]
      exact htl
    simp only [PredictPosition]
    rw [if_neg hn2, if_pos htl']

lemma newSubPath_ex : newSubPath ⟨0, 0, 0⟩ [⟨0, 0⟩, ⟨1, 0⟩] = [⟨0, 0⟩, ⟨1, 0⟩] := by
  have hmf : (0 : ℝ) < maxFloat64 := lt_maxFloat64 (by norm_num)
  have hscan : subPathScan ⟨0, 0, 0⟩ [⟨0, 0⟩, ⟨1, 0⟩] = (0, 0, (⟨0, 0⟩ : Point)) := by
    rw [subPathScan]
    rw [show List.range ([(⟨0, 0⟩ : Point), ⟨1, 0⟩].length - 1) = [0] from rfl]
    simp only [List.foldl_cons, List.foldl_nil]
    norm_num [projectPointOnSegment, dot, getDistance, hypot, zeroPoint,
      List.getD_cons_zero, List.getD_cons_succ,
      Real.sqrt_zero, hmf, Prod.mk.injEq, Point.mk.injEq]
  rw [newSubPath, hscan]
  rfl

lemma GenerateSubPath_exC9w :
    GenerateSubPath exC9w =
      ([⟨0, 0⟩, ⟨1, 0⟩], ⟨1, 0, ⟨0, 0, 0⟩, 1, [⟨0, 0⟩, ⟨1, 0⟩], [⟨0, 0⟩, ⟨1, 0⟩], true⟩) := by
  rw [GenerateSubPath_eq_pathBasis exC9w (by simp [exC9w])]
  rw [if_neg (by simp [exC9w])]
  simp only [exC9w]
  rw [newSubPath_ex]

/-- Witness for C6 at a concrete input: a fresh vehicle on the unit path
`[(0,0),(1,0)]` with speed 1 and `dt = 2` overruns the sub-path, commits
the forecast pose, and ends at `(1,0)` with heading `atan2 0 1`. -/
theorem PredictPosition_commits_witness :
    ((PredictPosition exC9w 2).2).Pose = (PredictPosition exC9w 2).1 ∧
    (PredictPosition exC9w 2).1 = ⟨1, 0, atan2 0 1⟩ := by
  have h2 : 2 ≤ ((GenerateSubPath exC9w).1).length := by
    rw [GenerateSubPath_exC9w]
    norm_num
  have main := PredictPosition_commits_and_endpoint exC9w 2 h2 (by norm_num)
  refine ⟨main.1, ?_⟩
  have hpl : pathLength (GenerateSubPath exC9w).1 ≤ exC9w.Speed * 2 := by
    rw [GenerateSubPath_exC9w]
    norm_num [pathLength, segLens, getDistance, hypot, Real.sqrt_one, exC9w]
  rw [main.2 hpl, GenerateSubPath_exC9w]
  norm_num [Pose.mk.injEq]

-- ===================== C4: earliestCollision =====================

lemma earliestFold_spec (tol : ℝ) :
    ∀ (l : List Collision), (∀ c ∈ l, min c.TimeA c.TimeB < maxFloat64) →
    ∀ st : ℝ × Option Collision,
    (st.2 = none → st.1 = maxFloat64) →
    (∀ b, st.2 = some b → st.1 = min b.TimeA b.TimeB ∧ b.TimeDiff ≤ tol) →
    ((l.foldl (earliestStep tol) st).2 = none →
        st.2 = none ∧ ∀ c ∈ l, ¬c.TimeDiff ≤ tol) ∧
    (∀ b, (l.foldl (earliestStep tol) st).2 = some b →
        (st.2 = some b ∨ (b ∈ l ∧ b.TimeDiff ≤ tol)) ∧
        (l.foldl (earliestStep tol) st).1 = min b.TimeA b.TimeB) ∧
    (l.foldl (earliestStep tol) st).1 ≤ st.1 ∧
    (∀ c ∈ l, c.TimeDiff ≤ tol →
        (l.foldl (earliestStep tol) st).1 ≤ min c.TimeA c.TimeB) := by
  intro l
  induction l with
  | nil =>
    intro _ st h1 h2
    simp only [List.foldl_nil]
    exact ⟨fun hn => ⟨hn, by simp⟩, fun b hb => ⟨Or.inl hb, (h2 b hb).1⟩, le_refl _, by simp⟩
  | cons c l ih =>
    intro hbound st h1 h2
    simp only [List.foldl_cons]
    have hb_c := hbound c (List.mem_cons_self c l)
    have hbound' : ∀ x ∈ l, min x.TimeA x.TimeB < maxFloat64 :=
      fun x hx => hbound x (List.mem_cons_of_mem _ hx)
    by_cases hq : c.TimeDiff ≤ tol
    · by_cases hlt : min c.TimeA c.TimeB < st.1
      · have hst' : earliestStep tol st c = (min c.TimeA c.TimeB, some c) := by
          simp only [earliestStep]
          rw [if_pos hq, if_pos hlt]
        rw [hst']
        obtain ⟨H1, H2, H3, H4⟩ := ih hbound' (min c.TimeA c.TimeB, some c)
          (by simp) (by intro b hb; simp only at hb; injection hb with hb; subst hb; exact ⟨rfl, hq⟩)
        refine ⟨fun hn => absurd (H1 hn).1 (by simp), fun b hb => ?_, ?_, ?_⟩
        · obtain ⟨hd, hfin⟩ := H2 b hb
          refine ⟨?_, hfin⟩
          rcases hd with hd | hd
          · simp only at hd
            injection hd with hd
            exact Or.inr ⟨hd ▸ List.mem_cons_self c l, hd ▸ hq⟩
          · exact Or.inr ⟨List.mem_cons_of_mem _ hd.1, hd.2⟩
        · exact le_trans H3 (le_of_lt hlt)
        · intro x hx hqx
          rcases List.mem_cons.mp hx with rfl | hxl
          · exact H3
          · exact H4 x hxl hqx
      · have hst' : earliestStep tol st c = st := by
          simp only [earliestStep]
          rw [if_pos hq, if_neg hlt]
        rw [hst']
        obtain ⟨H1, H2, H3, H4⟩ := ih hbound' st h1 h2
        refine ⟨fun hn => ?_, fun b hb => ?_, H3, ?_⟩
        · exfalso
          obtain ⟨hn1, _⟩ := H1 hn
          rw [h1 hn1] at hlt
          exact hlt hb_c
        · obtain ⟨hd, hfin⟩ := H2 b hb
          exact ⟨hd.elim Or.inl (fun h => Or.inr ⟨List.mem_cons_of_mem _ h.1, h.2⟩), hfin⟩
        · intro x hx hqx
          rcases List.mem_cons.mp hx with rfl | hxl
          · exact le_trans H3 (not_lt.mp hlt)
          · exact H4 x hxl hqx
    · have hst' : earliestStep tol st c = st := by
        simp only [earliestStep]
        rw [if_neg hq]
      rw [hst']
      obtain ⟨H1, H2, H3, H4⟩ := ih hbound' st h1 h2
      refine ⟨fun hn => ?_, fun b hb => ?_, H3, ?_⟩
      · obtain ⟨hn1, hn2⟩ := H1 hn
        refine ⟨hn1, fun x hx => ?_⟩
        rcases List.mem_cons.mp hx with rfl | hxl
        · exact hq
        · exact hn2 x hxl
      · obtain ⟨hd, hfin⟩ := H2 b hb
        exact ⟨hd.elim Or.inl (fun h => Or.inr ⟨List.mem_cons_of_mem _ h.1, h.2⟩), hfin⟩
      · intro x hx hqx
        rcases List.mem_cons.mp hx with rfl | hxl
        · exact absurd hqx hq
        · exact H4 x hxl hqx

/-- C4 (amended): provided every collision found on the two paths has
`min(TimeA, TimeB)` below the `math.MaxFloat64` sentinel that
initializes the scan, `earliestCollision` returns a collision iff
`findAllCollisions` yields one whose arrival-time difference is ≤ the
tolerance, and the returned collision has the smallest
`min(TimeA, TimeB)` among all collisions meeting the tolerance. -/
theorem earliestCollision_spec (pathA pathB : List Point) (vA vB width tol : ℝ)
    (hbound : ∀ c ∈ findAllCollisions pathA pathB vA vB width,
      min c.TimeA c.TimeB < maxFloat64) :
    ((earliestCollision pathA pathB vA vB width tol).isSome ↔
      ∃ c ∈ findAllCollisions pathA pathB vA vB width, c.TimeDiff ≤ tol) ∧
    (∀ b, earliestCollision pathA pathB vA vB width tol = some b →
      b ∈ findAllCollisions pathA pathB vA vB width ∧ b.TimeDiff ≤ tol ∧
      ∀ c ∈ findAllCollisions pathA pathB vA vB width, c.TimeDiff ≤ tol →
        min b.TimeA b.TimeB ≤ min c.TimeA c.TimeB) := by
  simp only [earliestCollision]
  by_cases he : (findAllCollisions pathA pathB vA vB width).isEmpty
  · rw [if_pos he]
    have hnil : findAllCollisions pathA pathB vA vB width = [] := by
      rwa [List.isEmpty_iff] at he
    simp [hnil]
  · rw [if_neg he]
    obtain ⟨H1, H2, H3, H4⟩ :=
      earliestFold_spec tol (findAllCollisions pathA pathB vA vB width) hbound
        ((maxFloat64, none) : ℝ × Option Collision) (fun _ => rfl) (by simp)
    constructor
    · constructor
      · intro hsome
        obtain ⟨b, hb⟩ := Option.isSome_iff_exists.mp hsome
        obtain ⟨hd, _⟩ := H2 b hb
        rcases hd with hd | hd
        · exact absurd hd (by simp)
        · exact ⟨b, hd.1, hd.2⟩
      · rintro ⟨c, hc, hqc⟩
        by_contra hns
        have hnone := Option.not_isSome_iff_eq_none.mp hns
        exact (H1 hnone).2 c hc hqc
    · intro b hb
      obtain ⟨hd, hfin⟩ := H2 b hb
      rcases hd with hd | hd
      · exact absurd hd (by simp)
      · exact ⟨hd.1, hd.2, fun c hc hqc => hfin ▸ H4 c hc hqc⟩

lemma segmentIntersect_huge :
    segmentIntersect ⟨⟨0, 0⟩, ⟨2 ^ 1024, 0⟩⟩ ⟨⟨0, 0⟩, ⟨2 ^ 1024, 0⟩⟩ 0 =
      some ⟨2 ^ 1023, 0⟩ := by
  simp only [segmentIntersect, cross]
  norm_num [min_def, max_def, Point.mk.injEq]

lemma pathDistanceToPoint_huge :
    pathDistanceToPoint hugePath ⟨2 ^ 1023, 0⟩ = 2 ^ 1023 := by
  rw [pathDistanceToPoint, hugePath]
  simp only [pathDistanceToPointAux]
  rw [if_pos (by norm_num [cross, min_def, max_def])]
  rw [getDistance, hypot,
    show (((2 : ℝ) ^ 1023 - 0) ^ 2 + (0 - 0) ^ 2) = (2 ^ 1023) ^ 2 by ring,
    Real.sqrt_sq (by positivity)]
  ring

lemma findAllCollisions_huge :
    findAllCollisions hugePath hugePath (1 / 4) (1 / 4) 0 = [hugeCollision] := by
  simp only [findAllCollisions]
  rw [show pathSegments hugePath = [⟨⟨0, 0⟩, ⟨2 ^ 1024, 0⟩⟩] from rfl]
  simp only [List.flatMap_cons, List.flatMap_nil, List.filterMap_cons, List.filterMap_nil,
    List.append_nil, segmentIntersect_huge]
  rw [show (⟨2 ^ 1023, 0⟩ : Point) = ⟨2 ^ 1023, 0⟩ from rfl]
  rw [show pathDistanceToPoint hugePath ⟨2 ^ 1023, 0⟩ = 2 ^ 1023 from pathDistanceToPoint_huge]
  norm_num [hugeCollision, Collision.mk.injEq, Point.mk.injEq]

/-- C4 counterexample: on `hugePath` against itself at speed 1/4 with
width 0 and tolerance 1, `findAllCollisions` yields exactly one
collision, its arrival-time difference (0) is within tolerance, yet
`earliestCollision` returns none — the collision's arrival time exceeds
the `math.MaxFloat64` sentinel, so the `<` update never fires. -/
theorem earliestCollision_sentinel_overflow :
    findAllCollisions hugePath hugePath (1 / 4) (1 / 4) 0 = [hugeCollision] ∧
    hugeCollision.TimeDiff ≤ 1 ∧
    earliestCollision hugePath hugePath (1 / 4) (1 / 4) 0 1 = none := by
  have hge : maxFloat64 ≤ (2 : ℝ) ^ 1025 := by
    have h1 : (2 : ℝ) ^ 1024 ≤ 2 ^ 1025 := by
      apply pow_le_pow_right₀ (by norm_num)
      norm_num
    have h2 : (0 : ℝ) < 2 ^ 971 := by positivity
    rw [maxFloat64]
    linarith
  refine ⟨findAllCollisions_huge, by norm_num [hugeCollision], ?_⟩
  simp only [earliestCollision, findAllCollisions_huge]
  rw [if_neg (by simp)]
  simp only [List.foldl_cons, List.foldl_nil, earliestStep]
  rw [if_pos (show hugeCollision.TimeDiff ≤ 1 by norm_num [hugeCollision])]
  simp only [hugeCollision, min_self]
  rw [if_neg (not_lt.mpr hge)]

lemma segmentIntersect_cross :
    segmentIntersect ⟨⟨0, 0⟩, ⟨2, 0⟩⟩ ⟨⟨1, -1⟩, ⟨1, 1⟩⟩ 0 = some ⟨1, 0⟩ := by
  simp only [segmentIntersect, cross]
  norm_num [Point.mk.injEq]

lemma pathDistanceToPoint_crossA : pathDistanceToPoint crossPathA ⟨1, 0⟩ = 1 := by
  rw [pathDistanceToPoint, crossPathA]
  simp only [pathDistanceToPointAux]
  rw [if_pos (by norm_num [cross, min_def, max_def])]
  rw [getDistance, hypot]
  norm_num

lemma pathDistanceToPoint_crossB : pathDistanceToPoint crossPathB ⟨1, 0⟩ = 1 := by
  rw [pathDistanceToPoint, crossPathB]
  simp only [pathDistanceToPointAux]
  rw [if_pos (by norm_num [cross, min_def, max_def])]
  rw [getDistance, hypot]
  norm_num

lemma findAllCollisions_cross :
    findAllCollisions crossPathA crossPathB 1 1 0 = [crossCol] := by
  simp only [findAllCollisions]
  rw [show pathSegments crossPathA = [⟨⟨0, 0⟩, ⟨2, 0⟩⟩] from rfl,
      show pathSegments crossPathB = [⟨⟨1, -1⟩, ⟨1, 1⟩⟩] from rfl]
  simp only [List.flatMap_cons, List.flatMap_nil, List.filterMap_cons, List.filterMap_nil,
    List.append_nil, segmentIntersect_cross]
  rw [show pathDistanceToPoint crossPathA ⟨1, 0⟩ = 1 from pathDistanceToPoint_crossA,
      show pathDistanceToPoint crossPathB ⟨1, 0⟩ = 1 from pathDistanceToPoint_crossB]
  norm_num [crossCol, Collision.mk.injEq, Point.mk.injEq]

/-- Witness for C4 at a concrete input: two unit-speed paths crossing at
`(1,0)` produce one collision with equal arrival times 1, and
`earliestCollision` returns it. -/
theorem earliestCollision_spec_witness :
    earliestCollision crossPathA crossPathB 1 1 0 1 = some crossCol ∧
    crossCol ∈ findAllCollisions crossPathA crossPathB 1 1 0 ∧
    crossCol.TimeDiff ≤ 1 := by
  have hbound : ∀ c ∈ findAllCollisions crossPathA crossPathB 1 1 0,
      min c.TimeA c.TimeB < maxFloat64 := by
    rw [findAllCollisions_cross]
    intro c hc
    rw [List.mem_singleton] at hc
    subst hc
    rw [crossCol]
    exact lt_maxFloat64 (by norm_num)
  have hmain := earliestCollision_spec crossPathA crossPathB 1 1 0 1 hbound
  have hmem : crossCol ∈ findAllCollisions crossPathA crossPathB 1 1 0 := by
    rw [findAllCollisions_cross]
    exact List.mem_singleton_self _
  have hq : crossCol.TimeDiff ≤ 1 := by norm_num [crossCol]
  have hsome := hmain.1.mpr ⟨crossCol, hmem, hq⟩
  obtain ⟨b, hb⟩ := Option.isSome_iff_exists.mp hsome
  have hbb := hmain.2 b hb
  have hbe : b = crossCol := by
    have := hbb.1
    rw [findAllCollisions_cross, List.mem_singleton] at this
    exact this
  exact ⟨hbe ▸ hb, hmem, hq⟩

-- ===================== C7: checkPathIntersection =====================

lemma checkFold_candidate (pathA : List Point) (width : ℝ) :
    ∀ (L : List (Segment × Segment)),
    (∀ pr ∈ L,
      (∀ q, segmentIntersect pr.1 pr.2 width = some q →
        getDistance (pathA.getD 0 zeroPoint) q < maxFloat64) ∧
      (segmentIntersect pr.1 pr.2 width = none →
        (segmentDistance pr.1 pr.2).1 < maxFloat64)) →
    ∀ st : ℝ × Point × Bool,
    (st.2.2 = false → st.1 = maxFloat64) →
    ((L.foldl (checkStep pathA width) st).2.2 = false →
      L.foldl (checkStep pathA width) st = st) ∧
    (∀ p, (L.foldl (checkStep pathA width) st).2.1 = p →
      (L.foldl (checkStep pathA width) st).2.2 = true →
      (st.2.2 = true ∧ st.2.1 = p) ∨ ∃ pr ∈ L, isContactCandidate width pr p) := by
  intro L
  induction L with
  | nil =>
    intro _ st hst
    simp only [List.foldl_nil]
    exact ⟨fun _ => trivial, fun p hp ht => Or.inl ⟨ht, hp⟩⟩
  | cons pr L ih =>
    intro hkey st hst
    have hkey_pr := hkey pr (List.mem_cons_self pr L)
    have hkey' : ∀ x ∈ L, _ := fun x hx => hkey x (List.mem_cons_of_mem _ hx)
    simp only [List.foldl_cons]
    have hstep : (checkStep pathA width st pr).2.2 = true ∧
        ((checkStep pathA width st pr).2.1 = st.2.1 ∧ st.2.2 = true ∨
          isContactCandidate width pr (checkStep pathA width st pr).2.1) ∨
        checkStep pathA width st pr = st := by
      rw [checkStep]
      cases hq : segmentIntersect pr.1 pr.2 width with
      | some q =>
        dsimp only
        by_cases hd : getDistance (pathA.getD 0 zeroPoint) q < st.1
        · rw [if_pos hd]
          exact Or.inl ⟨rfl, Or.inr (Or.inl hq)⟩
        · rw [if_neg hd]
          left
          refine ⟨rfl, Or.inl ⟨rfl, ?_⟩⟩
          by_contra hf
          have hf2 : st.2.2 = false := by
            cases hb : st.2.2
            · rfl
            · exact absurd hb hf
          rw [hst hf2] at hd
          exact hd (hkey_pr.1 q hq)
      | none =>
        dsimp only
        by_cases hnm : (segmentDistance pr.1 pr.2).1 ≤ width / 2
        · rw [if_pos hnm]
          by_cases hd : (segmentDistance pr.1 pr.2).1 < st.1
          · rw [if_pos hd]
            exact Or.inl ⟨rfl, Or.inr (Or.inr ⟨hq, hnm, rfl⟩)⟩
          · rw [if_neg hd]
            left
            refine ⟨rfl, Or.inl ⟨rfl, ?_⟩⟩
            by_contra hf
            have hf2 : st.2.2 = false := by
              cases hb : st.2.2
              · rfl
              · exact absurd hb hf
            rw [hst hf2] at hd
            exact hd (hkey_pr.2 hq)
        · rw [if_neg hnm]
          exact Or.inr rfl
    rcases hstep with ⟨htrue, hcand⟩ | hsame
    · obtain ⟨H1, H2⟩ := ih hkey' (checkStep pathA width st pr) (by rw [htrue]; intro h; cases h)
      constructor
      · intro hfin
        have := H1 hfin
        rw [this, htrue] at hfin
        cases hfin
      · intro p hp ht
        rcases H2 p hp ht with ⟨_, hq⟩ | ⟨x, hx, hc⟩
        · rcases hcand with ⟨hkeep, hstt⟩ | hc
          · exact Or.inl ⟨hstt, by rw [← hq, hkeep]⟩
          · exact Or.inr ⟨pr, List.mem_cons_self pr L, hq ▸ hc⟩
        · exact Or.inr ⟨x, List.mem_cons_of_mem _ hx, hc⟩
    · rw [hsame]
      obtain ⟨H1, H2⟩ := ih hkey' st hst
      refine ⟨H1, fun p hp ht => ?_⟩
      rcases H2 p hp ht with h | ⟨x, hx, hc⟩
      · exact Or.inl h
      · exact Or.inr ⟨x, List.mem_cons_of_mem _ hx, hc⟩

/-- C7 (amended): whenever `checkPathIntersection` reports a hit (and all
comparison keys are below the `math.MaxFloat64` sentinel), the returned
point is one of the candidate contact points — a `segmentIntersect` hit
point or a near-miss contact point with `segmentDistance ≤ width/2` of
some scanned segment pair. It is not in general the candidate nearest
`pathA`'s first point, because intersect hits are keyed by distance to
`pathA[0]` while near-miss candidates are keyed by their gap distance. -/
theorem checkPathIntersection_returns_candidate (pathA pathB : List Point) (width : ℝ)
    (hkey : ∀ pr ∈ segPairs pathA pathB,
      (∀ q, segmentIntersect pr.1 pr.2 width = some q →
        getDistance (pathA.getD 0 zeroPoint) q < maxFloat64) ∧
      (segmentIntersect pr.1 pr.2 width = none →
        (segmentDistance pr.1 pr.2).1 < maxFloat64)) :
    ∀ p, checkPathIntersection pathA pathB width = some p →
      ∃ pr ∈ segPairs pathA pathB, isContactCandidate width pr p := by
  intro p hp
  obtain ⟨H1, H2⟩ := checkFold_candidate pathA width (segPairs pathA pathB) hkey
    ((maxFloat64, zeroPoint, false) : ℝ × Point × Bool) (fun _ => rfl)
  simp only [checkPathIntersection] at hp
  by_cases hf : ((segPairs pathA pathB).foldl (checkStep pathA width)
      ((maxFloat64, zeroPoint, false) : ℝ × Point × Bool)).2.2 = true
  · rw [if_pos hf] at hp
    injection hp with hp
    rcases H2 p hp hf with ⟨hff, _⟩ | hc
    · cases hff
    · exact hc
  · rw [if_neg hf] at hp
    cases hp

lemma one_le_sqrt_of_one_le {x : ℝ} (hx : 1 ≤ x) : (1 : ℝ) ≤ Real.sqrt x := by
  calc (1 : ℝ) = Real.sqrt 1 := Real.sqrt_one.symm
  _ ≤ Real.sqrt x := Real.sqrt_le_sqrt hx

lemma segmentIntersect_c7a :
    segmentIntersect ⟨⟨0, 0⟩, ⟨20, 0⟩⟩ ⟨⟨5, -1⟩, ⟨5, 1⟩⟩ 1 = some ⟨5, 0⟩ := by
  simp only [segmentIntersect, cross]
  norm_num [Point.mk.injEq]

lemma segmentIntersect_c7b :
    segmentIntersect ⟨⟨0, 0⟩, ⟨20, 0⟩⟩ ⟨⟨5, 1⟩, ⟨18, 1 / 4⟩⟩ 1 = none := by
  simp only [segmentIntersect, cross]
  norm_num

lemma segmentDistance_c7 :
    segmentDistance ⟨⟨0, 0⟩, ⟨20, 0⟩⟩ ⟨⟨5, 1⟩, ⟨18, 1 / 4⟩⟩ = (0, ⟨5, 1⟩) := by
  have c1 : closestPointOnSegment ⟨0, 0⟩ ⟨⟨5, 1⟩, ⟨18, 1 / 4⟩⟩ = (⟨5, 1⟩ : Point) := by
    norm_num [closestPointOnSegment, Point.mk.injEq]
  have c2 : closestPointOnSegment ⟨20, 0⟩ ⟨⟨5, 1⟩, ⟨18, 1 / 4⟩⟩ = (⟨18, 1 / 4⟩ : Point) := by
    norm_num [closestPointOnSegment, Point.mk.injEq]
  have c3 : closestPointOnSegment ⟨5, 1⟩ ⟨⟨0, 0⟩, ⟨20, 0⟩⟩ = (⟨5, 0⟩ : Point) := by
    norm_num [closestPointOnSegment, Point.mk.injEq]
  have c4 : closestPointOnSegment ⟨18, 1 / 4⟩ ⟨⟨0, 0⟩, ⟨20, 0⟩⟩ = (⟨18, 0⟩ : Point) := by
    norm_num [closestPointOnSegment, Point.mk.injEq]
  have dA1 : getDistance ⟨0, 0⟩ ⟨5, 1⟩ = Real.sqrt 26 := by
    norm_num [getDistance, hypot]
  have dA2 : getDistance ⟨20, 0⟩ ⟨5, 1⟩ = Real.sqrt 226 := by
    norm_num [getDistance, hypot]
  have dA3 : getDistance ⟨5, 1⟩ ⟨5, 1⟩ = (0 : ℝ) := by
    norm_num [getDistance, hypot]
  have dA4 : getDistance ⟨18, 1 / 4⟩ ⟨5, 1⟩ = Real.sqrt (2713 / 16) := by
    norm_num [getDistance, hypot]
  have dB1 : getDistance ⟨0, 0⟩ ⟨18, 1 / 4⟩ = Real.sqrt (5185 / 16) := by
    norm_num [getDistance, hypot]
  have dB2 : getDistance ⟨20, 0⟩ ⟨18, 1 / 4⟩ = Real.sqrt (65 / 16) := by
    norm_num [getDistance, hypot]
  have dB3 : getDistance ⟨5, 1⟩ ⟨18, 1 / 4⟩ = Real.sqrt (2713 / 16) := by
    norm_num [getDistance, hypot]
  have dB4 : getDistance ⟨18, 1 / 4⟩ ⟨18, 1 / 4⟩ = (0 : ℝ) := by
    norm_num [getDistance, hypot]
  have dC1 : getDistance ⟨0, 0⟩ ⟨5, 0⟩ = (5 : ℝ) := by
    simp only [getDistance, hypot]
    exact sqrt_eq_of_sq _ _ (by norm_num) (by norm_num)
  have dC2 : getDistance ⟨20, 0⟩ ⟨5, 0⟩ = (15 : ℝ) := by
    simp only [getDistance, hypot]
    exact sqrt_eq_of_sq _ _ (by norm_num) (by norm_num)
  have dC3 : getDistance ⟨5, 1⟩ ⟨5, 0⟩ = (1 : ℝ) := by
    norm_num [getDistance, hypot]
  have dC4 : getDistance ⟨18, 1 / 4⟩ ⟨5, 0⟩ = Real.sqrt (2705 / 16) := by
    norm_num [getDistance, hypot]
  have dD1 : getDistance ⟨0, 0⟩ ⟨18, 0⟩ = (18 : ℝ) := by
    simp only [getDistance, hypot]
    exact sqrt_eq_of_sq _ _ (by norm_num) (by norm_num)
  have dD2 : getDistance ⟨20, 0⟩ ⟨18, 0⟩ = (2 : ℝ) := by
    simp only [getDistance, hypot]
    exact sqrt_eq_of_sq _ _ (by norm_num) (by norm_num)
  have dD3 : getDistance ⟨5, 1⟩ ⟨18, 0⟩ = Real.sqrt 170 := by
    norm_num [getDistance, hypot]
  have dD4 : getDistance ⟨18, 1 / 4⟩ ⟨18, 0⟩ = (1 / 4 : ℝ) := by
    simp only [getDistance, hypot]
    exact sqrt_eq_of_sq _ _ (by norm_num) (by norm_num)
  have hm1 : min (0 : ℝ) (Real.sqrt (2713 / 16)) = 0 := min_eq_left (Real.sqrt_nonneg _)
  have hm2 : min (min (Real.sqrt 26) (Real.sqrt 226)) 0 = 0 :=
    min_eq_right (le_min (Real.sqrt_nonneg _) (Real.sqrt_nonneg _))
  have hm3 : min (Real.sqrt (2713 / 16)) 0 = 0 := min_eq_right (Real.sqrt_nonneg _)
  have hm4 : min (min (Real.sqrt (5185 / 16)) (Real.sqrt (65 / 16))) 0 = 0 :=
    min_eq_right (le_min (Real.sqrt_nonneg _) (Real.sqrt_nonneg _))
  have hm5 : min (5 : ℝ) 15 = 5 := min_eq_left (by norm_num)
  have hm6 : min (1 : ℝ) (Real.sqrt (2705 / 16)) = 1 :=
    min_eq_left (one_le_sqrt_of_one_le (by norm_num))
  have hm7 : min (5 : ℝ) 1 = 1 := min_eq_right (by norm_num)
  have hm8 : min (18 : ℝ) 2 = 2 := min_eq_right (by norm_num)
  have hm9 : min (Real.sqrt 170) (1 / 4 : ℝ) = 1 / 4 :=
    min_eq_right (le_trans (by norm_num) (one_le_sqrt_of_one_le (by norm_num)))
  have hm10 : min (2 : ℝ) (1 / 4) = 1 / 4 := min_eq_right (by norm_num)
  have hT1 : (0 : ℝ) < maxFloat64 := lt_maxFloat64 (by norm_num)
  simp only [segmentDistance, c1, c2, c3, c4, List.foldl,
    dA1, dA2, dA3, dA4, dB1, dB2, dB3, dB4, dC1, dC2, dC3, dC4, dD1, dD2, dD3, dD4,
    hm1, hm2, hm3, hm4, hm5, hm6, hm7, hm8, hm9, hm10]
  norm_num [hT1, Prod.mk.injEq, Point.mk.injEq]

lemma checkPathIntersection_c7 :
    checkPathIntersection c7PathA c7PathB 1 = some ⟨5, 1⟩ := by
  have h5 : (5 : ℝ) < maxFloat64 := lt_maxFloat64 (by norm_num)
  have dC1 : getDistance ⟨0, 0⟩ ⟨5, 0⟩ = (5 : ℝ) := by
    simp only [getDistance, hypot]
    exact sqrt_eq_of_sq _ _ (by norm_num) (by norm_num)
  simp only [checkPathIntersection]
  rw [show segPairs c7PathA c7PathB =
    [(⟨⟨0, 0⟩, ⟨20, 0⟩⟩, ⟨⟨5, -1⟩, ⟨5, 1⟩⟩), (⟨⟨0, 0⟩, ⟨20, 0⟩⟩, ⟨⟨5, 1⟩, ⟨18, 1 / 4⟩⟩)] from rfl]
  simp only [List.foldl_cons, List.foldl_nil, checkStep,
    segmentIntersect_c7a, segmentIntersect_c7b, segmentDistance_c7]
  rw [show c7PathA.getD 0 zeroPoint = (⟨0, 0⟩ : Point) from rfl, dC1]
  norm_num [h5]

/-- C7 counterexample: on `c7PathA` and `c7PathB` with width 1, the scan
returns the near-miss contact point `(5,1)` even though the direct
intersect hit `(5,0)` — also a candidate — is strictly nearer to
`pathA`'s first point: intersect hits compete on distance-to-start but
near misses compete on their gap distance (here 0). -/
theorem checkPathIntersection_not_nearest :
    checkPathIntersection c7PathA c7PathB 1 = some ⟨5, 1⟩ ∧
    ((⟨⟨0, 0⟩, ⟨20, 0⟩⟩, ⟨⟨5, -1⟩, ⟨5, 1⟩⟩) : Segment × Segment) ∈ segPairs c7PathA c7PathB ∧
    segmentIntersect ⟨⟨0, 0⟩, ⟨20, 0⟩⟩ ⟨⟨5, -1⟩, ⟨5, 1⟩⟩ 1 = some ⟨5, 0⟩ ∧
    getDistance ⟨0, 0⟩ ⟨5, 0⟩ < getDistance ⟨0, 0⟩ ⟨5, 1⟩ := by
  refine ⟨checkPathIntersection_c7, ?_, segmentIntersect_c7a, ?_⟩
  · rw [show segPairs c7PathA c7PathB =
      [(⟨⟨0, 0⟩, ⟨20, 0⟩⟩, ⟨⟨5, -1⟩, ⟨5, 1⟩⟩), (⟨⟨0, 0⟩, ⟨20, 0⟩⟩, ⟨⟨5, 1⟩, ⟨18, 1 / 4⟩⟩)] from rfl]
    exact List.mem_cons_self _ _
  · have dC1 : getDistance ⟨0, 0⟩ ⟨5, 0⟩ = (5 : ℝ) := by
      simp only [getDistance, hypot]
      exact sqrt_eq_of_sq _ _ (by norm_num) (by norm_num)
    have dA1 : getDistance ⟨0, 0⟩ ⟨5, 1⟩ = Real.sqrt 26 := by
      norm_num [getDistance, hypot]
    rw [dC1, dA1]
    nlinarith [Real.sq_sqrt (show (0 : ℝ) ≤ 26 by norm_num), Real.sqrt_nonneg (26 : ℝ)]

/-- Witness for C7 at a concrete input: the crossing paths of the C4
witness produce the hit `(1,0)`, which the amended theorem certifies as
a contact candidate of a scanned segment pair. -/
theorem checkPathIntersection_returns_candidate_witness :
    checkPathIntersection crossPathA crossPathB 0 = some ⟨1, 0⟩ ∧
    ∃ pr ∈ segPairs crossPathA crossPathB, isContactCandidate 0 pr ⟨1, 0⟩ := by
  have h1 : (1 : ℝ) < maxFloat64 := lt_maxFloat64 (by norm_num)
  have dE1 : getDistance ⟨0, 0⟩ ⟨1, 0⟩ = (1 : ℝ) := by
    norm_num [getDistance, hypot]
  have heval : checkPathIntersection crossPathA crossPathB 0 = some ⟨1, 0⟩ := by
    simp only [checkPathIntersection]
    rw [show segPairs crossPathA crossPathB =
      [(⟨⟨0, 0⟩, ⟨2, 0⟩⟩, ⟨⟨1, -1⟩, ⟨1, 1⟩⟩)] from rfl]
    simp only [List.foldl_cons, List.foldl_nil, checkStep, segmentIntersect_cross]
    rw [show crossPathA.getD 0 zeroPoint = (⟨0, 0⟩ : Point) from rfl, dE1]
    norm_num [h1]
  have hkey : ∀ pr ∈ segPairs crossPathA crossPathB,
      (∀ q, segmentIntersect pr.1 pr.2 0 = some q →
        getDistance (crossPathA.getD 0 zeroPoint) q < maxFloat64) ∧
      (segmentIntersect pr.1 pr.2 0 = none →
        (segmentDistance pr.1 pr.2).1 < maxFloat64) := by
    rw [show segPairs crossPathA crossPathB =
      [(⟨⟨0, 0⟩, ⟨2, 0⟩⟩, ⟨⟨1, -1⟩, ⟨1, 1⟩⟩)] from rfl]
    intro pr hpr
    rw [List.mem_singleton] at hpr
    subst hpr
    constructor
    · intro q hq
      rw [segmentIntersect_cross] at hq
      injection hq with hq
      subst hq
      rw [show crossPathA.getD 0 zeroPoint = (⟨0, 0⟩ : Point) from rfl, dE1]
      exact h1
    · intro hq
      rw [segmentIntersect_cross] at hq
      cases hq
  exact ⟨heval,
    checkPathIntersection_returns_candidate crossPathA crossPathB 0 hkey ⟨1, 0⟩ heval⟩

-- ===================== C3: KD-tree range search =====================

lemma insertSorted_pairwise (key : AGV → ℝ) (a : AGV) (l : List AGV)
    (hl : l.Pairwise (fun x y => key x ≤ key y)) :
    (insertSorted key a l).Pairwise (fun x y => key x ≤ key y) := by
  induction l with
  | nil => simp [insertSorted]
  | cons b bs ih =>
    rw [List.pairwise_cons] at hl
    obtain ⟨hb, hbs⟩ := hl
    simp only [insertSorted]
    split_ifs with hab
    · refine List.pairwise_cons.mpr ⟨?_, List.pairwise_cons.mpr ⟨hb, hbs⟩⟩
      intro y hy
      rcases List.mem_cons.mp hy with rfl | hybs
      · exact hab
      · exact le_trans hab (hb y hybs)
    · refine List.pairwise_cons.mpr ⟨?_, ih hbs⟩
      intro y hy
      rw [(insertSorted_perm key a bs).mem_iff, List.mem_cons] at hy
      rcases hy with rfl | hybs
      · exact le_of_not_le hab
      · exact hb y hybs

lemma sortByKey_pairwise (key : AGV → ℝ) (l : List AGV) :
    (sortByKey key l).Pairwise (fun x y => key x ≤ key y) := by
  induction l with
  | nil => simp [sortByKey]
  | cons a rest ih => exact insertSorted_pairwise key a _ ih

lemma buildKDTree_elems_aux (n : Nat) :
    ∀ (l : List AGV), l.length ≤ n → ∀ d, ((buildKDTree l d).1).elems = (buildKDTree l d).2 := by
  induction n with
  | zero =>
    intro l hl d
    rw [List.length_eq_zero.mp (Nat.le_zero.mp hl), buildKDTree]
    rfl
  | succ n ih =>
    intro l hl d
    cases l with
    | nil => rw [buildKDTree]; rfl
    | cons a rest =>
      rw [buildKDTree]
      rw [List.length_cons] at hl
      set s := sortByKey (axisKey (d % 2)) (a :: rest) with hs
      have hslen : s.length = rest.length + 1 := by
        rw [hs, sortByKey_length, List.length_cons]
      simp only [KDNode.elems]
      rw [ih (s.take (s.length / 2)) (by rw [List.length_take]; omega) (d + 1),
          ih (s.drop (s.length / 2 + 1)) (by rw [List.length_drop]; omega) (d + 1)]

lemma buildKDTree_elems (l : List AGV) (d : Nat) :
    ((buildKDTree l d).1).elems = (buildKDTree l d).2 :=
  buildKDTree_elems_aux l.length l le_rfl d

lemma buildKDTree_WF_aux (n : Nat) :
    ∀ (l : List AGV), l.length ≤ n → ∀ d, ((buildKDTree l d).1).WF := by
  induction n with
  | zero =>
    intro l hl d
    rw [List.length_eq_zero.mp (Nat.le_zero.mp hl), buildKDTree]
    trivial
  | succ n ih =>
    intro l hl d
    cases l with
    | nil => rw [buildKDTree]; trivial
    | cons a rest =>
      rw [buildKDTree]
      rw [List.length_cons] at hl
      set s := sortByKey (axisKey (d % 2)) (a :: rest) with hs
      have hslen : s.length = rest.length + 1 := by
        rw [hs, sortByKey_length, List.length_cons]
      have hm : s.length / 2 < s.length := by omega
      have hpw : s.Pairwise (fun x y => axisKey (d % 2) x ≤ axisKey (d % 2) y) := by
        rw [hs]
        exact sortByKey_pairwise _ _
      have htake : (s.take (s.length / 2)).length ≤ n := by
        rw [List.length_take]; omega
      have hdrop : (s.drop (s.length / 2 + 1)).length ≤ n := by
        rw [List.length_drop]; omega
      simp only [KDNode.WF]
      refine ⟨?_, ?_, ih _ htake (d + 1), ih _ hdrop (d + 1)⟩
      · intro v hv
        rw [buildKDTree_elems_aux n _ htake (d + 1)] at hv
        have hv2 : v ∈ s.take (s.length / 2) :=
          (buildKDTree_slice_perm _ _).mem_iff.mp hv
        obtain ⟨i, hi, hieq⟩ := List.mem_iff_getElem.mp hv2
        have hi' : i < s.length / 2 := by
          rw [List.length_take] at hi
          omega
        have hib : i < s.length := by omega
        have hit : (s.take (s.length / 2))[i] = s[i] := List.getElem_take s
        rw [List.getD_eq_getElem s zeroAGV hm, ← hieq, hit]
        exact List.pairwise_iff_getElem.mp hpw i (s.length / 2) (by omega) hm hi'
      · intro v hv
        rw [buildKDTree_elems_aux n _ hdrop (d + 1)] at hv
        have hv2 : v ∈ s.drop (s.length / 2 + 1) :=
          (buildKDTree_slice_perm _ _).mem_iff.mp hv
        obtain ⟨j, hj, hjeq⟩ := List.mem_iff_getElem.mp hv2
        have hj' : s.length / 2 + 1 + j < s.length := by
          rw [List.length_drop] at hj
          omega
        have hjt : (s.drop (s.length / 2 + 1))[j] = s[s.length / 2 + 1 + j] :=
          List.getElem_drop s
        rw [List.getD_eq_getElem s zeroAGV hm, ← hjeq, hjt]
        exact List.pairwise_iff_getElem.mp hpw (s.length / 2) (s.length / 2 + 1 + j)
          hm hj' (by omega)

lemma buildKDTree_WF (l : List AGV) (d : Nat) : ((buildKDTree l d).1).WF :=
  buildKDTree_WF_aux l.length l le_rfl d

lemma axis_le_distance (k : Nat) (v target : AGV) :
    |axisKey k v - axisKey k target| ≤ distance v target := by
  by_cases hk : k = 0
  · rw [axisKey, axisKey, if_pos hk, if_pos hk, distance]
    exact abs_left_le_hypot _ _
  · rw [axisKey, axisKey, if_neg hk, if_neg hk, distance]
    exact abs_right_le_hypot _ _

lemma perm_mid (acc xs ys : List AGV) (a : AGV) :
    (((acc ++ [a]) ++ xs) ++ ys).Perm (acc ++ (xs ++ a :: ys)) := by
  simp only [List.append_assoc]
  exact List.Perm.append_left acc (@List.perm_middle AGV a xs ys).symm

lemma perm_mid2 (acc xs ys : List AGV) (a : AGV) :
    (((acc ++ [a]) ++ ys) ++ xs).Perm (acc ++ (xs ++ a :: ys)) := by
  simp only [List.append_assoc, List.append_nil]
  refine List.Perm.append_left acc ?_
  exact (List.Perm.cons a (@List.perm_append_comm AGV ys xs)).trans
    (@List.perm_middle AGV a xs ys).symm

lemma rangeSearch_spec (target : AGV) (r : ℝ) :
    ∀ t : KDNode, t.WF → ∀ acc : List AGV,
      (rangeSearch t target r acc).Perm (acc ++ t.elems.filter (inRangeB target r)) := by
  intro t
  induction t with
  | nil =>
    intro _ acc
    simp [rangeSearch, KDNode.elems]
  | node a l rt d ihl ihr =>
    intro hwf acc
    rw [KDNode.WF] at hwf
    obtain ⟨hbl, hbr, hwl, hwr⟩ := hwf
    have hfilter_cons : (KDNode.elems (.node a l rt d)).filter (inRangeB target r) =
        l.elems.filter (inRangeB target r) ++
          (if a.Id ≠ target.Id ∧ distance a target ≤ r then
            a :: rt.elems.filter (inRangeB target r)
          else rt.elems.filter (inRangeB target r)) := by
      by_cases hpa : a.Id ≠ target.Id ∧ distance a target ≤ r
      · simp [KDNode.elems, List.filter_append, List.filter_cons, inRangeB, hpa]
      · simp [KDNode.elems, List.filter_append, List.filter_cons, inRangeB, hpa]
    have hcomb : ∀ xs ys : List AGV,
        ((((if a.Id ≠ target.Id ∧ distance a target ≤ r then acc ++ [a] else acc)) ++ xs) ++
            ys).Perm
          (acc ++ (xs ++ (if a.Id ≠ target.Id ∧ distance a target ≤ r then a :: ys else ys))) := by
      intro xs ys
      by_cases hpa : a.Id ≠ target.Id ∧ distance a target ≤ r
      · rw [if_pos hpa, if_pos hpa]
        exact perm_mid acc xs ys a
      · rw [if_neg hpa, if_neg hpa, List.append_assoc]
    have hcomb2 : ∀ xs ys : List AGV,
        ((((if a.Id ≠ target.Id ∧ distance a target ≤ r then acc ++ [a] else acc)) ++ ys) ++
            xs).Perm
          (acc ++ (xs ++ (if a.Id ≠ target.Id ∧ distance a target ≤ r then a :: ys else ys))) := by
      intro xs ys
      by_cases hpa : a.Id ≠ target.Id ∧ distance a target ≤ r
      · rw [if_pos hpa, if_pos hpa]
        exact perm_mid2 acc xs ys a
      · rw [if_neg hpa, if_neg hpa, List.append_assoc]
        exact List.Perm.append_left acc (@List.perm_append_comm AGV ys xs)
    simp only [rangeSearch]
    set df := (if d % 2 = 0 then target.Pose.X - a.Pose.X else target.Pose.Y - a.Pose.Y) with hdf
    have hdfk : df = axisKey (d % 2) target - axisKey (d % 2) a := by
      rw [hdf]
      by_cases hk : d % 2 = 0 <;> simp [axisKey, hk]
    by_cases hd0 : df ≤ 0
    · rw [if_pos hd0]
      by_cases habs : |df| ≤ r
      · rw [if_pos habs]
        refine (ihr hwr _).trans ?_
        refine (((ihl hwl _).append_right _).trans ?_)
        rw [hfilter_cons]
        exact hcomb _ _
      · rw [if_neg habs]
        have hrt_nil : rt.elems.filter (inRangeB target r) = [] := by
          rw [List.filter_eq_nil_iff]
          intro v hv
          simp only [inRangeB, decide_eq_true_eq]
          rintro ⟨-, hle⟩
          have hkv := hbr v hv
          have hax := axis_le_distance (d % 2) v target
          have h1 : r < axisKey (d % 2) a - axisKey (d % 2) target := by
            have := not_le.mp habs
            rw [abs_of_nonpos hd0, hdfk] at this
            linarith
          have h2 : axisKey (d % 2) v - axisKey (d % 2) target ≤
              |axisKey (d % 2) v - axisKey (d % 2) target| := le_abs_self _
          linarith
        refine (ihl hwl _).trans ?_
        rw [hfilter_cons, hrt_nil]
        have := hcomb (l.elems.filter (inRangeB target r)) []
        rwa [List.append_nil] at this
    · rw [if_neg hd0]
      by_cases habs : |df| ≤ r
      · rw [if_pos habs]
        refine (ihl hwl _).trans ?_
        refine (((ihr hwr _).append_right _).trans ?_)
        rw [hfilter_cons]
        exact hcomb2 _ _
      · rw [if_neg habs]
        have hl_nil : l.elems.filter (inRangeB target r) = [] := by
          rw [List.filter_eq_nil_iff]
          intro v hv
          simp only [inRangeB, decide_eq_true_eq]
          rintro ⟨-, hle⟩
          have hkv := hbl v hv
          have hax := axis_le_distance (d % 2) v target
          have h1 : r < axisKey (d % 2) target - axisKey (d % 2) a := by
            have := not_le.mp habs
            rw [abs_of_pos (not_le.mp hd0), hdfk] at this
            linarith
          have h2 : -(axisKey (d % 2) v - axisKey (d % 2) target) ≤
              |axisKey (d % 2) v - axisKey (d % 2) target| := neg_le_abs _
          linarith
        refine (ihr hwr _).trans ?_
        rw [hfilter_cons, hl_nil]
        have := hcomb2 [] (rt.elems.filter (inRangeB target r))
        rwa [List.append_nil, List.nil_append] at this

/-- C3: for a fleet with pairwise distinct ids, a target in the fleet and
a radius `r ≥ 0`, `rangeSearch` on the tree built by `buildKDTree`
returns exactly the fleet vehicles other than the target within
Euclidean distance `r` of the target — each exactly once, none missed by
the subtree pruning, and never the target itself. -/
theorem rangeSearch_exact (fleet : List AGV) (target : AGV) (r : ℝ)
    (hids : fleet.Pairwise (fun a b => a.Id ≠ b.Id)) (htar : target ∈ fleet) (hr : 0 ≤ r) :
    (rangeSearch (buildKDTree fleet 0).1 target r []).Nodup ∧
    (∀ v, v ∈ rangeSearch (buildKDTree fleet 0).1 target r [] ↔
      (v ∈ fleet ∧ v.Id ≠ target.Id ∧ distance v target ≤ r)) := by
  have hwf := buildKDTree_WF fleet 0
  have hperm0 := rangeSearch_spec target r (buildKDTree fleet 0).1 hwf []
  rw [List.nil_append] at hperm0
  have helems : ((buildKDTree fleet 0).1).elems.Perm fleet :=
    (buildKDTree_elems fleet 0) ▸ buildKDTree_slice_perm fleet 0
  constructor
  · have hfleet_nodup : fleet.Nodup :=
      hids.imp fun h heq => h (congrArg AGV.Id heq)
    have helnd : ((buildKDTree fleet 0).1).elems.Nodup :=
      helems.nodup_iff.mpr hfleet_nodup
    exact hperm0.nodup_iff.mpr (helnd.filter _)
  · intro v
    rw [hperm0.mem_iff, List.mem_filter, helems.mem_iff]
    simp [inRangeB]

lemma buildKDTree_single :
    buildKDTree [exA1] 0 = (KDNode.node exA1 .nil .nil 0, [exA1]) := by
  rw [buildKDTree]
  rw [show sortByKey (axisKey (0 % 2)) [exA1] = [exA1] from by simp [sortByKey, insertSorted]]
  show (KDNode.node exA1 (buildKDTree ([] : List AGV) 1).1 (buildKDTree ([] : List AGV) 1).1 0,
      (buildKDTree ([] : List AGV) 1).2 ++ exA1 :: (buildKDTree ([] : List AGV) 1).2) = _
  rw [buildKDTree_nil]
  rfl

/-- Witness for C3 at a concrete input: the one-vehicle fleet — the
search returns the empty list (the target itself is excluded), which is
duplicate-free and matches the brute-force characterization. -/
theorem rangeSearch_exact_witness :
    rangeSearch (buildKDTree [exA1] 0).1 exA1 0 [] = [] ∧
    (rangeSearch (buildKDTree [exA1] 0).1 exA1 0 []).Nodup ∧
    (∀ v, v ∈ rangeSearch (buildKDTree [exA1] 0).1 exA1 0 [] ↔
      (v ∈ [exA1] ∧ v.Id ≠ exA1.Id ∧ distance v exA1 ≤ 0)) := by
  have hmain := rangeSearch_exact [exA1] exA1 0 (by simp) (by simp) le_rfl
  refine ⟨?_, hmain.1, hmain.2⟩
  rw [buildKDTree_single]
  norm_num [rangeSearch, exA1]

-- ===================== C1: DetectAndSchedule example =====================

lemma buildKDTree_fleet :
    buildKDTree [fleetA, fleetB] 0 =
      (KDNode.node fleetB (KDNode.node fleetA .nil .nil 1) .nil 0, [fleetA, fleetB]) := by
  have hs1 : sortByKey (axisKey (1 % 2)) [fleetA] = [fleetA] := by
    simp [sortByKey, insertSorted]
  have hinner : buildKDTree [fleetA] 1 = (KDNode.node fleetA .nil .nil 1, [fleetA]) := by
    rw [buildKDTree, hs1]
    show (KDNode.node fleetA (buildKDTree ([] : List AGV) 2).1 (buildKDTree ([] : List AGV) 2).1 1,
        (buildKDTree ([] : List AGV) 2).2 ++ fleetA :: (buildKDTree ([] : List AGV) 2).2) = _
    rw [buildKDTree_nil]
    rfl
  have hs0 : sortByKey (axisKey (0 % 2)) [fleetA, fleetB] = [fleetA, fleetB] := by
    norm_num [sortByKey, insertSorted, axisKey, fleetA, fleetB]
  rw [buildKDTree, hs0]
  show (KDNode.node fleetB (buildKDTree [fleetA] 1).1 (buildKDTree ([] : List AGV) 1).1 0,
      (buildKDTree [fleetA] 1).2 ++ fleetB :: (buildKDTree ([] : List AGV) 1).2) = _
  rw [hinner, buildKDTree_nil]
  rfl

lemma distance_BA : distance fleetB fleetA = 10 := by
  simp only [distance, fleetA, fleetB]
  rw [hypot, show ((10 : ℝ) - 0) ^ 2 + ((0 : ℝ) - 0) ^ 2 = 10 ^ 2 by norm_num,
    Real.sqrt_sq (by norm_num)]

lemma distance_AB : distance fleetA fleetB = 10 := by
  simp only [distance, fleetA, fleetB]
  rw [hypot, show ((0 : ℝ) - 10) ^ 2 + ((0 : ℝ) - 0) ^ 2 = 10 ^ 2 by norm_num,
    Real.sqrt_sq (by norm_num)]

lemma rangeSearch_fleetA (radius : ℝ) (hrad : 10 ≤ radius) :
    rangeSearch (KDNode.node fleetB (KDNode.node fleetA .nil .nil 1) .nil 0)
      fleetA radius [] = [fleetB] := by
  have h0rad : (0 : ℝ) ≤ radius := le_trans (by norm_num) hrad
  have hid1 : fleetB.Id ≠ fleetA.Id := by norm_num [fleetA, fleetB]
  have hd1 : distance fleetB fleetA ≤ radius := by rw [distance_BA]; exact hrad
  have hdx : fleetA.Pose.X - fleetB.Pose.X = (-10 : ℝ) := by norm_num [fleetA, fleetB]
  have hdy : fleetA.Pose.Y - fleetA.Pose.Y = (0 : ℝ) := by norm_num
  norm_num [rangeSearch, hdx, hdy, hid1, hd1, hrad, h0rad]

lemma rangeSearch_fleetB (radius : ℝ) (hrad : 10 ≤ radius) :
    rangeSearch (KDNode.node fleetB (KDNode.node fleetA .nil .nil 1) .nil 0)
      fleetB radius [] = [fleetA] := by
  have h0rad : (0 : ℝ) ≤ radius := le_trans (by norm_num) hrad
  have hid1 : fleetA.Id ≠ fleetB.Id := by norm_num [fleetA, fleetB]
  have hd1 : distance fleetA fleetB ≤ radius := by rw [distance_AB]; exact hrad
  have hdx : fleetB.Pose.X - fleetB.Pose.X = (0 : ℝ) := by norm_num
  have hdy : fleetB.Pose.Y - fleetA.Pose.Y = (0 : ℝ) := by norm_num [fleetA, fleetB]
  norm_num [rangeSearch, hdx, hdy, hid1, hd1, h0rad]

lemma segmentIntersect_fleet :
    segmentIntersect ⟨⟨0, 0⟩, ⟨10, 0⟩⟩ ⟨⟨10, 0⟩, ⟨0, 0⟩⟩ 1 = some ⟨5, 0⟩ := by
  simp only [segmentIntersect, cross]
  norm_num [min_def, max_def, Point.mk.injEq]

lemma pathDistanceToPoint_fleetA :
    pathDistanceToPoint [⟨0, 0⟩, ⟨10, 0⟩] ⟨5, 0⟩ = 5 := by
  rw [pathDistanceToPoint]
  simp only [pathDistanceToPointAux]
  rw [if_pos (by norm_num [cross, min_def, max_def])]
  rw [getDistance, hypot, show ((5 : ℝ) - 0) ^ 2 + ((0 : ℝ) - 0) ^ 2 = 5 ^ 2 by norm_num,
    Real.sqrt_sq (by norm_num)]
  ring

lemma pathDistanceToPoint_fleetB :
    pathDistanceToPoint [⟨10, 0⟩, ⟨0, 0⟩] ⟨5, 0⟩ = 5 := by
  rw [pathDistanceToPoint]
  simp only [pathDistanceToPointAux]
  rw [if_pos (by norm_num [cross, min_def, max_def])]
  rw [getDistance, hypot, show ((5 : ℝ) - 10) ^ 2 + ((0 : ℝ) - 0) ^ 2 = 5 ^ 2 by norm_num,
    Real.sqrt_sq (by norm_num)]
  ring

lemma findAllCollisions_fleet :
    findAllCollisions [⟨0, 0⟩, ⟨10, 0⟩] [⟨10, 0⟩, ⟨0, 0⟩] 2 2 1 =
      [⟨⟨5, 0⟩, 5, 5, 5 / 2, 5 / 2, 0⟩] := by
  simp only [findAllCollisions]
  rw [show pathSegments [(⟨0, 0⟩ : Point), ⟨10, 0⟩] = [⟨⟨0, 0⟩, ⟨10, 0⟩⟩] from rfl,
      show pathSegments [(⟨10, 0⟩ : Point), ⟨0, 0⟩] = [⟨⟨10, 0⟩, ⟨0, 0⟩⟩] from rfl]
  simp only [List.flatMap_cons, List.flatMap_nil, List.filterMap_cons, List.filterMap_nil,
    List.append_nil, segmentIntersect_fleet]
  rw [show pathDistanceToPoint [(⟨0, 0⟩ : Point), ⟨10, 0⟩] ⟨5, 0⟩ = 5
        from pathDistanceToPoint_fleetA,
      show pathDistanceToPoint [(⟨10, 0⟩ : Point), ⟨0, 0⟩] ⟨5, 0⟩ = 5
        from pathDistanceToPoint_fleetB]
  norm_num [Collision.mk.injEq, Point.mk.injEq]

lemma earliestCollision_fleet :
    earliestCollision [⟨0, 0⟩, ⟨10, 0⟩] [⟨10, 0⟩, ⟨0, 0⟩] 2 2 1 (1 / 10) =
      some ⟨⟨5, 0⟩, 5, 5, 5 / 2, 5 / 2, 0⟩ := by
  have hlt : (5 / 2 : ℝ) < maxFloat64 := lt_maxFloat64 (by norm_num)
  simp only [earliestCollision, findAllCollisions_fleet]
  rw [if_neg (by simp)]
  simp only [List.foldl_cons, List.foldl_nil, earliestStep]
  rw [if_pos (show (⟨⟨5, 0⟩, 5, 5, 5 / 2, 5 / 2, 0⟩ : Collision).TimeDiff ≤ 1 / 10
    by norm_num)]
  simp only [min_self]
  rw [if_pos hlt]

lemma DetectCollisionWith_fleet :
    DetectCollisionWith fleetA fleetB (1 / 10) =
      some ⟨fleetA, fleetB, ⟨5, 0⟩, 5 / 2, 5 / 2, 0⟩ := by
  simp only [DetectCollisionWith]
  rw [show fleetA.Path = [(⟨0, 0⟩ : Point), ⟨10, 0⟩] from rfl,
      show fleetB.Path = [(⟨10, 0⟩ : Point), ⟨0, 0⟩] from rfl,
      show fleetA.Speed = (2 : ℝ) from rfl,
      show fleetB.Speed = (2 : ℝ) from rfl,
      show (fleetA.Width + fleetB.Width) / 2 = (1 : ℝ) from by norm_num [fleetA, fleetB],
      earliestCollision_fleet]

lemma DetectCollisionsWithKDTree_fleet (radius : ℝ) (hrad : 10 ≤ radius) :
    DetectCollisionsWithKDTree [fleetA, fleetB] (1 / 10) radius =
      [⟨fleetA, fleetB, ⟨5, 0⟩, 5 / 2, 5 / 2, 0⟩] := by
  simp only [DetectCollisionsWithKDTree]
  rw [buildKDTree_fleet]
  simp only [List.foldl_cons, List.foldl_nil]
  rw [rangeSearch_fleetA radius hrad, rangeSearch_fleetB radius hrad]
  simp only [detectLoopInner, List.foldl_cons, List.foldl_nil]
  rw [if_neg (show ¬seenPair [] fleetA.Id fleetB.Id from by simp [seenPair])]
  rw [DetectCollisionWith_fleet]
  rw [if_pos (show seenPair [(fleetA.Id, fleetB.Id)] fleetB.Id fleetA.Id
    from Or.inr (by simp))]
  simp

/-- C1: for the two-vehicle fleet — A (id 1) at `(0,0)` heading east with
speed 2 and path `[(0,0),(10,0)]`, B (id 2) at `(10,0)` heading west with
speed 2 and path `[(10,0),(0,0)]`, each of width 1 — `DetectAndSchedule`
with time tolerance 0.1, any query radius ≥ 10 and any `safeGap > 0`
returns exactly the GO action for A with zero wait followed by the WAIT
action for B with wait `safeGap`, both referencing the conflict point
`(5,0)` with both arrival times 5/2. -/
theorem DetectAndSchedule_two_vehicle (radius safeGap : ℝ)
    (hrad : 10 ≤ radius) (hgap : 0 < safeGap) :
    DetectAndSchedule [fleetA, fleetB] (1 / 10) radius safeGap =
      [⟨fleetA, "GO", 0, ⟨fleetA, fleetB, ⟨5, 0⟩, 5 / 2, 5 / 2, 0⟩⟩,
       ⟨fleetB, "WAIT", safeGap, ⟨fleetA, fleetB, ⟨5, 0⟩, 5 / 2, 5 / 2, 0⟩⟩] := by
  simp only [DetectAndSchedule]
  rw [DetectCollisionsWithKDTree_fleet radius hrad]
  simp only [List.foldl_cons, List.foldl_nil, ResolveCollision]
  rw [if_pos (show (⟨fleetA, fleetB, ⟨5, 0⟩, 5 / 2, 5 / 2, 0⟩ : CollisionEvent).Time1 ≤
      (⟨fleetA, fleetB, ⟨5, 0⟩, 5 / 2, 5 / 2, 0⟩ : CollisionEvent).Time2 from le_refl _)]
  simp only [List.nil_append]
  norm_num [ScheduleAction.mk.injEq]

/-- Witness for C1 at a concrete input: radius 10 and safe gap 1 — B is
told to wait exactly 1 second. -/
theorem DetectAndSchedule_two_vehicle_witness :
    DetectAndSchedule [fleetA, fleetB] (1 / 10) 10 1 =
      [⟨fleetA, "GO", 0, ⟨fleetA, fleetB, ⟨5, 0⟩, 5 / 2, 5 / 2, 0⟩⟩,
       ⟨fleetB, "WAIT", 1, ⟨fleetA, fleetB, ⟨5, 0⟩, 5 / 2, 5 / 2, 0⟩⟩] :=
  DetectAndSchedule_two_vehicle 10 1 (by norm_num) (by norm_num)

end AgvCollider

end
